import Mathlib

/-!
Verification of the `provision` repository: a shallow embedding of
`src/provision.py` (the topology builder), `src/destroy.py` (the topology
reaper) and `src/config.py` (an unused constants module), together with
theorems settling the frozen claims about creation order, teardown order,
retry classification, capacity bounds, tagging, discovery, and error
propagation.

The builder and reaper issue cloud control-plane calls.  We model a run as
the list of calls it issues, in order.  The responses of the control plane
(identifiers returned by create calls, the contents of describe/list
calls, and the success or failure of each call) are supplied by an
explicit environment (`World` for the builder, `DWorld` plus a fault
function for the reaper), so theorems quantify over all control-plane
behaviours the scripts can observe.
-/

/-! ## String utilities

The Python `str.startswith`, the `in` substring operator and `==` on
strings, modelled over `String.data` so that they are structurally
recursive and kernel-evaluable. -/

def listStartsWith : List Char → List Char → Bool
  | _, [] => true
  | [], _ :: _ => false
  | a :: as, b :: bs => a == b && listStartsWith as bs

def listSub : List Char → List Char → Bool
  | [], needle => needle.isEmpty
  | c :: t, needle => listStartsWith (c :: t) needle || listSub t needle

/-- Python `s.startswith(p)`. -/
def strStartsWith (s p : String) : Bool := listStartsWith s.data p.data

/-- Python `needle in hay` (substring containment). -/
def strContains (hay needle : String) : Bool := listSub hay.data needle.data

/-- Python `a == b` on strings. -/
def strEq (a b : String) : Bool := a.data == b.data

/-! ## Tags -/

/-- A key/value tag as sent to the control plane. -/
structure Tag where
  key : String
  value : String
deriving Repr, DecidableEq

/-- One entry of an EC2 `TagSpecifications` argument. -/
structure TagSpecEntry where
  resourceType : String
  tags : List Tag
deriving Repr, DecidableEq

/-- An autoscaling tag (carries a `PropagateAtLaunch` flag). -/
structure AsgTag where
  key : String
  value : String
  propagateAtLaunch : Bool
deriving Repr, DecidableEq

/-! ## Resource kinds of the fixed topology (spec section 3) -/

inductive ResourceKind where
  | network
  | gateway
  | routeTable
  | subnet
  | securityGroup
  | targetGroup
  | loadBalancer
  | listener
  | launchTemplate
  | scalingGroup
deriving Repr, DecidableEq

/-! ## config.py

Constants defined in `src/config.py`.  Neither `provision.py` nor
`destroy.py` imports this module; the structure packages its constants so
that independence of the two scripts from them can be stated. -/

structure ConfigPy where
  region : String
  projectTag : Tag
  envTag : Tag
  vpcCidr : String
  subnetCidr : String
  asgMin : Nat
  asgDesired : Nat
  asgMax : Nat
  cpuTarget : Nat
deriving Repr, DecidableEq

/-- The literal constant values in `src/config.py`. -/
def configPyDefaults : ConfigPy :=
  { region := "us-east-1"
    projectTag := ⟨"Project", "cpu-stress"⟩
    envTag := ⟨"Env", "dev"⟩
    vpcCidr := "10.0.0.0/16"
    subnetCidr := "10.0.1.0/24"
    asgMin := 1
    asgDesired := 1
    asgMax := 5
    cpuTarget := 50 }

/-! ## provision.py: module constants -/

def NAME : String := "s3-file-manager"
def AMI_ID : String := "ami-08dcef8cfdf0ece49"
def INSTANCE_TYPE : String := "t3.micro"
def VPC_CIDR : String := "10.50.0.0/16"
def PUBLIC_SUBNET_CIDRS : List String := ["10.50.10.0/24", "10.50.20.0/24"]
def MIN_SIZE : Nat := 2
def MAX_SIZE : Nat := 4
def DESIRED : Nat := 2
def KEY_NAME : Option String := none
def INSTANCE_PROFILE_NAME : Option String := none
def USER_DATA : Option String := none

/-- Python truthiness of an optional string (`if KEY_NAME:`). -/
def pyTruthy : Option String → Bool
  | none => false
  | some s => !(s.data == ([] : List Char))

/-- Abstract model of `base64.b64encode(..).decode(..)`; unused because
`USER_DATA` is `none`, kept so the launch-template builder mirrors the
source line by line. -/
def base64encode (s : String) : String := s

/-! ## provision.py: control-plane calls -/

/-- The `LaunchTemplateData` dictionary built by `create_launch_template`.
`resourceTagSpecs` are the instance/volume tag specifications nested in
the data (they tag future instances, not the launch template itself). -/
structure LtData where
  imageId : String
  instanceType : String
  securityGroupIds : List String
  resourceTagSpecs : List TagSpecEntry
  keyName : Option String
  iamInstanceProfile : Option String
  userData : Option String
deriving Repr, DecidableEq

/-- One control-plane API call issued by the builder, with the arguments
the source passes. -/
inductive Call where
  | describeAvailabilityZones
  | createVpc (cidrBlock : String) (tagSpecs : List TagSpecEntry)
  | modifyVpcAttribute (vpcId : String) (attr : String)
  | createInternetGateway (tagSpecs : List TagSpecEntry)
  | attachInternetGateway (igwId : String) (vpcId : String)
  | createRouteTable (vpcId : String) (tagSpecs : List TagSpecEntry)
  | createRoute (rtId : String) (destinationCidrBlock : String) (gatewayId : String)
  | createSubnet (vpcId : String) (cidrBlock : String) (az : String) (tagSpecs : List TagSpecEntry)
  | modifySubnetAttribute (subnetId : String) (attr : String)
  | associateRouteTable (subnetId : String) (rtId : String)
  | createSecurityGroup (groupName : String) (description : String) (vpcId : String)
      (tagSpecs : List TagSpecEntry)
  | authorizeSecurityGroupIngress (groupId : String) (protocol : String)
      (fromPort : Nat) (toPort : Nat) (cidrIp : String)
  | createTargetGroup (tgName : String) (protocol : String) (port : Nat) (vpcId : String)
      (targetType : String) (hcProtocol : String) (hcPort : String) (hcPath : String)
      (tags : List Tag)
  | createLoadBalancer (lbName : String) (lbType : String) (scheme : String)
      (subnets : List String) (ipAddressType : String) (tags : List Tag)
  | describeLoadBalancers (lbArn : String)
  | createListener (lbArn : String) (protocol : String) (port : Nat)
      (defaultTargetGroupArn : String)
  | createLaunchTemplate (ltName : String) (data : LtData) (tagSpecs : List TagSpecEntry)
  | createAutoScalingGroup (asgName : String) (minSize : Nat) (maxSize : Nat)
      (desiredCapacity : Nat) (vpcZoneIdentifier : String) (ltId : String)
      (ltVersion : String) (targetGroupArns : List String) (healthCheckType : String)
      (healthCheckGracePeriod : Nat) (tags : List AsgTag)
deriving Repr, DecidableEq

/-- The control-plane environment a builder run observes: identifiers
returned by create calls, availability zones, the region taken from the
process environment, and the state reported by each load-balancer
describe call (indexed by poll attempt). -/
structure World where
  envRegion : String
  azNames : List String
  vpcId : String
  igwId : String
  rtId : String
  subnetId : Nat → String
  sgId : String
  tgArn : String
  lbArn : String
  lbDns : String
  listenerArn : String
  ltId : String
  nlbState : Nat → String

/-- Model of `tag_spec(resource_type, name)` from provision.py. -/
def tag_spec (resourceType nm : String) : List TagSpecEntry :=
  [⟨resourceType, [⟨"Name", nm⟩, ⟨"stack", NAME⟩]⟩]

/-- Model of `pick_two_azs()`: describe the zones, fail if fewer than two. -/
def pick_two_azs (w : World) : List Call × Except String (String × String) :=
  ([Call.describeAvailabilityZones],
    match w.azNames with
    | a1 :: a2 :: _ => Except.ok (a1, a2)
    | _ => Except.error "Need at least 2 AZs in this region.")

/-- Model of `create_vpc()`. -/
def create_vpc (w : World) : List Call × String :=
  ([Call.createVpc VPC_CIDR (tag_spec "vpc" (NAME ++ "-vpc")),
    Call.modifyVpcAttribute w.vpcId "EnableDnsSupport",
    Call.modifyVpcAttribute w.vpcId "EnableDnsHostnames"],
   w.vpcId)

/-- Model of `create_igw(vpc_id)`. -/
def create_igw (w : World) (vpc_id : String) : List Call × String :=
  ([Call.createInternetGateway (tag_spec "internet-gateway" (NAME ++ "-igw")),
    Call.attachInternetGateway w.igwId vpc_id],
   w.igwId)

/-- Model of `create_route_table(vpc_id, igw_id)`. -/
def create_route_table (w : World) (vpc_id igw_id : String) : List Call × String :=
  ([Call.createRouteTable vpc_id (tag_spec "route-table" (NAME ++ "-public-rt")),
    Call.createRoute w.rtId "0.0.0.0/0" igw_id],
   w.rtId)

/-- Model of `create_public_subnet(vpc_id, cidr, az, rt_id, idx)`. -/
def create_public_subnet (w : World) (vpc_id cidr az rt_id : String) (idx : Nat) :
    List Call × String :=
  ([Call.createSubnet vpc_id cidr az
      (tag_spec "subnet" (NAME ++ "-public-subnet-" ++ toString (idx + 1))),
    Call.modifySubnetAttribute (w.subnetId idx) "MapPublicIpOnLaunch",
    Call.associateRouteTable (w.subnetId idx) rt_id],
   w.subnetId idx)

/-- Model of `create_ec2_sg(vpc_id)`. -/
def create_ec2_sg (w : World) (vpc_id : String) : List Call × String :=
  ([Call.createSecurityGroup (NAME ++ "-ec2-sg") "Allow 443 from NLB to instances" vpc_id
      (tag_spec "security-group" (NAME ++ "-ec2-sg")),
    Call.authorizeSecurityGroupIngress w.sgId "tcp" 443 443 "0.0.0.0/0"],
   w.sgId)

/-- Model of `create_target_group(vpc_id)`. -/
def create_target_group (w : World) (vpc_id : String) : List Call × String :=
  ([Call.createTargetGroup (NAME ++ "-tg-443") "TCP" 443 vpc_id "instance"
      "HTTPS" "443" "/"
      [⟨"stack", NAME⟩, ⟨"Name", NAME ++ "-tg-443"⟩]],
   w.tgArn)

/-- The `for _ in range(30)` polling loop inside `create_nlb`: describe the
balancer, stop as soon as its state is active, else sleep and poll again.
`attempt` indexes describe calls from 0, `fuel` is the remaining budget. -/
def pollLoop (w : World) (lb_arn : String) (attempt fuel : Nat) : List Call :=
  match fuel with
  | 0 => []
  | Nat.succ f =>
    Call.describeLoadBalancers lb_arn ::
      (if strEq (w.nlbState attempt) "active" then []
       else pollLoop w lb_arn (attempt + 1) f)

/-- Model of `create_nlb(subnet_ids)`: create the balancer, then poll its state up
to 30 times. -/
def create_nlb (w : World) (subnet_ids : List String) : List Call × (String × String) :=
  (Call.createLoadBalancer (NAME ++ "-nlb") "network" "internet-facing" subnet_ids "ipv4"
      [⟨"stack", NAME⟩, ⟨"Name", NAME ++ "-nlb"⟩] ::
     pollLoop w w.lbArn 0 30,
   (w.lbArn, w.lbDns))

/-- Model of `create_nlb_listener_tcp_443(lb_arn, tg_arn)`.  Note: the source
passes no `Tags` argument to `create_listener`. -/
def create_nlb_listener_tcp_443 (w : World) (lb_arn tg_arn : String) : List Call × String :=
  ([Call.createListener lb_arn "TCP" 443 tg_arn], w.listenerArn)

/-- Model of `create_launch_template(sg_id)`, mirroring the conditional insertion
of the optional `KeyName` / `IamInstanceProfile` / `UserData` fields. -/
def create_launch_template (w : World) (sg_id : String) : List Call × String :=
  let lt_name := NAME ++ "-lt"
  let data0 : LtData :=
    { imageId := AMI_ID
      instanceType := INSTANCE_TYPE
      securityGroupIds := [sg_id]
      resourceTagSpecs :=
        [⟨"instance", [⟨"Name", NAME ++ "-instance"⟩, ⟨"stack", NAME⟩]⟩,
         ⟨"volume", [⟨"Name", NAME ++ "-volume"⟩, ⟨"stack", NAME⟩]⟩]
      keyName := none
      iamInstanceProfile := none
      userData := none }
  let data1 := if pyTruthy KEY_NAME then { data0 with keyName := KEY_NAME } else data0
  let data2 :=
    if pyTruthy INSTANCE_PROFILE_NAME then
      { data1 with iamInstanceProfile := INSTANCE_PROFILE_NAME }
    else data1
  let data3 :=
    match USER_DATA, pyTruthy USER_DATA with
    | some u, true => { data2 with userData := some (base64encode u) }
    | _, _ => data2
  ([Call.createLaunchTemplate lt_name data3 (tag_spec "launch-template" lt_name)], w.ltId)

/-- Python `",".join(subnet_ids)`. -/
def joinComma : List String → String
  | [] => ""
  | [s] => s
  | s :: s2 :: rest => s ++ "," ++ joinComma (s2 :: rest)

/-- Model of `create_asg(lt_id, subnet_ids, tg_arn)`, parameterised over the
capacity constants at the top of the file. -/
def create_asg (lt_id : String) (subnet_ids : List String) (tg_arn : String)
    (minSize maxSize desired : Nat) : List Call × String :=
  let asg_name := NAME ++ "-asg"
  ([Call.createAutoScalingGroup asg_name minSize maxSize desired (joinComma subnet_ids)
      lt_id "$Latest" [tg_arn] "ELB" 90
      [⟨"Name", asg_name, true⟩, ⟨"stack", NAME, true⟩]],
   asg_name)

/-- The summary record printed at the end of a successful builder run. -/
structure Summary where
  region : String
  vpc_id : String
  subnets : List String
  ec2_sg : String
  target_group_arn : String
  nlb_arn : String
  nlb_dns : String
  launch_template_id : String
  asg_name : String
  url : String
deriving Repr, DecidableEq

/-- Model of `main()` of provision.py: the AMI sanity check, zone selection, and
the creation sequence.  Returns the list of control-plane calls issued
(in order) and either the summary or the error that aborted the run.
The capacity bounds are the `MIN_SIZE`/`MAX_SIZE`/`DESIRED` constants,
taken as parameters so statements can range over edited values. -/
def mainRun (w : World) (minSize maxSize desired : Nat) :
    List Call × Except String Summary :=
  if !(strStartsWith AMI_ID "ami-") || strContains AMI_ID "x" then
    ([], Except.error "Edit AMI_ID at top of file (must be a real ami-...).")
  else
    let azStep := pick_two_azs w
    match azStep.2 with
    | Except.error e => (azStep.1, Except.error e)
    | Except.ok (az1, az2) =>
      let s1 := create_vpc w
      let vpc_id := s1.2
      let s2 := create_igw w vpc_id
      let igw_id := s2.2
      let s3 := create_route_table w vpc_id igw_id
      let rt_id := s3.2
      let s4 := create_public_subnet w vpc_id (PUBLIC_SUBNET_CIDRS.getD 0 "") az1 rt_id 0
      let subnet1 := s4.2
      let s5 := create_public_subnet w vpc_id (PUBLIC_SUBNET_CIDRS.getD 1 "") az2 rt_id 1
      let subnet2 := s5.2
      let s6 := create_ec2_sg w vpc_id
      let sg_id := s6.2
      let s7 := create_target_group w vpc_id
      let tg_arn := s7.2
      let s8 := create_nlb w [subnet1, subnet2]
      let lb_arn := s8.2.1
      let lb_dns := s8.2.2
      let s9 := create_nlb_listener_tcp_443 w lb_arn tg_arn
      let s10 := create_launch_template w sg_id
      let lt_id := s10.2
      let s11 := create_asg lt_id [subnet1, subnet2] tg_arn minSize maxSize desired
      let asg_name := s11.2
      (azStep.1 ++ s1.1 ++ s2.1 ++ s3.1 ++ s4.1 ++ s5.1 ++ s6.1 ++ s7.1 ++ s8.1 ++
         s9.1 ++ s10.1 ++ s11.1,
       Except.ok
         { region := w.envRegion
           vpc_id := vpc_id
           subnets := [subnet1, subnet2]
           ec2_sg := sg_id
           target_group_arn := tg_arn
           nlb_arn := lb_arn
           nlb_dns := lb_dns
           launch_template_id := lt_id
           asg_name := asg_name
           url := "https://" ++ lb_dns ++ "/  (TCP passthrough, TLS terminates on EC2)" })

/-! ## Observations on builder calls -/

/-- Which resource kind a call creates, if any. -/
def kindOf : Call → Option ResourceKind
  | Call.createVpc _ _ => some ResourceKind.network
  | Call.createInternetGateway _ => some ResourceKind.gateway
  | Call.createRouteTable _ _ => some ResourceKind.routeTable
  | Call.createSubnet _ _ _ _ => some ResourceKind.subnet
  | Call.createSecurityGroup _ _ _ _ => some ResourceKind.securityGroup
  | Call.createTargetGroup _ _ _ _ _ _ _ _ _ => some ResourceKind.targetGroup
  | Call.createLoadBalancer _ _ _ _ _ _ => some ResourceKind.loadBalancer
  | Call.createListener _ _ _ _ => some ResourceKind.listener
  | Call.createLaunchTemplate _ _ _ => some ResourceKind.launchTemplate
  | Call.createAutoScalingGroup _ _ _ _ _ _ _ _ _ _ _ => some ResourceKind.scalingGroup
  | _ => none

def flatTags (ts : List TagSpecEntry) : List Tag := ts.flatMap (fun e => e.tags)

/-- The tags a creation call applies to the resource it creates
(`none` for non-creation calls).  The listener creation call passes no
tags; launch-template tags are the resource-level `TagSpecifications`
argument, not the instance/volume specs nested in the data. -/
def callTags : Call → Option (List Tag)
  | Call.createVpc _ ts => some (flatTags ts)
  | Call.createInternetGateway ts => some (flatTags ts)
  | Call.createRouteTable _ ts => some (flatTags ts)
  | Call.createSubnet _ _ _ ts => some (flatTags ts)
  | Call.createSecurityGroup _ _ _ ts => some (flatTags ts)
  | Call.createTargetGroup _ _ _ _ _ _ _ _ tags2 => some tags2
  | Call.createLoadBalancer _ _ _ _ _ tags2 => some tags2
  | Call.createListener _ _ _ _ => some []
  | Call.createLaunchTemplate _ _ ts => some (flatTags ts)
  | Call.createAutoScalingGroup _ _ _ _ _ _ _ _ _ _ tags2 =>
      some (tags2.map (fun t => ⟨t.key, t.value⟩))
  | _ => none

/-- Does a creation call carry the stack-identity tag `stack = NAME`? -/
def hasStackTag (c : Call) : Bool :=
  match callTags c with
  | some ts => ts.any (fun t => strEq t.key "stack" && strEq t.value NAME)
  | none => false

/-- The (kind, stack-tagged?) projection of a trace, creation calls only. -/
def tagKindSummary (t : List Call) : List (ResourceKind × Bool) :=
  t.filterMap (fun c => (kindOf c).map (fun k => (k, hasStackTag c)))

/-- The sequence of resource kinds created along a trace, in order. -/
def createKinds (t : List Call) : List ResourceKind := t.filterMap kindOf

/-- Every call of k1 occurs at a strictly smaller index than every call of
k2 (indices into a kind sequence). -/
def OrderedPairP (ks : List ResourceKind) (k1 k2 : ResourceKind) : Prop :=
  ∀ i, i < ks.length → ∀ j, j < ks.length →
    ks.getD i k1 = k1 → ks.getD j k2 = k2 → i < j

def exceptOk {ε α : Type} : Except ε α → Bool
  | Except.ok _ => true
  | Except.error _ => false

theorem tagKindSummary_pollLoop (w : World) (a : String) (attempt fuel : Nat) :
    tagKindSummary (pollLoop w a attempt fuel) = [] := by
  induction fuel generalizing attempt with
  | zero => rfl
  | succ f ih =>
    unfold pollLoop
    by_cases h : strEq (w.nlbState attempt) "active" = true
    · simp [tagKindSummary, h, kindOf]
    · simp only [Bool.not_eq_true] at h
      simp [tagKindSummary, h, kindOf] at ih ⊢
      exact ih (attempt + 1)

theorem mainRun_trace (w : World) (mn mx d : Nat)
    (a1 a2 : String) (rest : List String) (hAz : w.azNames = a1 :: a2 :: rest) :
    (mainRun w mn mx d).1 =
      [Call.describeAvailabilityZones,
       Call.createVpc VPC_CIDR (tag_spec "vpc" (NAME ++ "-vpc")),
       Call.modifyVpcAttribute w.vpcId "EnableDnsSupport",
       Call.modifyVpcAttribute w.vpcId "EnableDnsHostnames",
       Call.createInternetGateway (tag_spec "internet-gateway" (NAME ++ "-igw")),
       Call.attachInternetGateway w.igwId w.vpcId,
       Call.createRouteTable w.vpcId (tag_spec "route-table" (NAME ++ "-public-rt")),
       Call.createRoute w.rtId "0.0.0.0/0" w.igwId,
       Call.createSubnet w.vpcId "10.50.10.0/24" a1 (tag_spec "subnet" (NAME ++ "-public-subnet-1")),
       Call.modifySubnetAttribute (w.subnetId 0) "MapPublicIpOnLaunch",
       Call.associateRouteTable (w.subnetId 0) w.rtId,
       Call.createSubnet w.vpcId "10.50.20.0/24" a2 (tag_spec "subnet" (NAME ++ "-public-subnet-2")),
       Call.modifySubnetAttribute (w.subnetId 1) "MapPublicIpOnLaunch",
       Call.associateRouteTable (w.subnetId 1) w.rtId,
       Call.createSecurityGroup (NAME ++ "-ec2-sg") "Allow 443 from NLB to instances" w.vpcId
         (tag_spec "security-group" (NAME ++ "-ec2-sg")),
       Call.authorizeSecurityGroupIngress w.sgId "tcp" 443 443 "0.0.0.0/0",
       Call.createTargetGroup (NAME ++ "-tg-443") "TCP" 443 w.vpcId "instance" "HTTPS" "443" "/"
         [⟨"stack", NAME⟩, ⟨"Name", NAME ++ "-tg-443"⟩],
       Call.createLoadBalancer (NAME ++ "-nlb") "network" "internet-facing"
         [w.subnetId 0, w.subnetId 1] "ipv4" [⟨"stack", NAME⟩, ⟨"Name", NAME ++ "-nlb"⟩]]
      ++ pollLoop w w.lbArn 0 30 ++
      [Call.createListener w.lbArn "TCP" 443 w.tgArn,
       Call.createLaunchTemplate (NAME ++ "-lt")
         { imageId := AMI_ID
           instanceType := INSTANCE_TYPE
           securityGroupIds := [w.sgId]
           resourceTagSpecs :=
             [⟨"instance", [⟨"Name", NAME ++ "-instance"⟩, ⟨"stack", NAME⟩]⟩,
              ⟨"volume", [⟨"Name", NAME ++ "-volume"⟩, ⟨"stack", NAME⟩]⟩]
           keyName := none
           iamInstanceProfile := none
           userData := none }
         (tag_spec "launch-template" (NAME ++ "-lt")),
       Call.createAutoScalingGroup (NAME ++ "-asg") mn mx d
         (joinComma [w.subnetId 0, w.subnetId 1]) w.ltId "$Latest" [w.tgArn] "ELB" 90
         [⟨"Name", NAME ++ "-asg", true⟩, ⟨"stack", NAME, true⟩]] := by
  have hami : (!(strStartsWith AMI_ID "ami-") || strContains AMI_ID "x") = false := by decide
  have hkey : pyTruthy KEY_NAME = false := rfl
  have hprof : pyTruthy INSTANCE_PROFILE_NAME = false := rfl
  simp [mainRun, hami, pick_two_azs, hAz, create_vpc, create_igw, create_route_table,
    create_public_subnet, create_ec2_sg, create_target_group, create_nlb,
    create_nlb_listener_tcp_443, create_launch_template, create_asg, hkey, hprof,
    USER_DATA, PUBLIC_SUBNET_CIDRS]
  decide

theorem tagKindSummary_mainRun (w : World) (mn mx d : Nat)
    (a1 a2 : String) (rest : List String) (hAz : w.azNames = a1 :: a2 :: rest) :
    tagKindSummary (mainRun w mn mx d).1 =
      [(ResourceKind.network, true), (ResourceKind.gateway, true),
       (ResourceKind.routeTable, true), (ResourceKind.subnet, true),
       (ResourceKind.subnet, true), (ResourceKind.securityGroup, true),
       (ResourceKind.targetGroup, true), (ResourceKind.loadBalancer, true),
       (ResourceKind.listener, false), (ResourceKind.launchTemplate, true),
       (ResourceKind.scalingGroup, true)] := by
  have hpoll := tagKindSummary_pollLoop w w.lbArn 0 30
  rw [mainRun_trace w mn mx d a1 a2 rest hAz]
  simp only [tagKindSummary, List.filterMap_append] at hpoll ⊢
  rw [hpoll]
  simp [kindOf, hasStackTag, callTags, flatTags, tag_spec]
  decide

theorem createKinds_eq_map_fst (t : List Call) :
    createKinds t = (tagKindSummary t).map Prod.fst := by
  induction t with
  | nil => rfl
  | cons c rest ih =>
    simp only [createKinds, tagKindSummary, List.filterMap_cons] at ih ⊢
    cases h : kindOf c <;> simp [h, ih, createKinds, tagKindSummary]

theorem createKinds_mainRun (w : World) (mn mx d : Nat)
    (a1 a2 : String) (rest : List String) (hAz : w.azNames = a1 :: a2 :: rest) :
    createKinds (mainRun w mn mx d).1 =
      [ResourceKind.network, ResourceKind.gateway, ResourceKind.routeTable,
       ResourceKind.subnet, ResourceKind.subnet, ResourceKind.securityGroup,
       ResourceKind.targetGroup, ResourceKind.loadBalancer, ResourceKind.listener,
       ResourceKind.launchTemplate, ResourceKind.scalingGroup] := by
  rw [createKinds_eq_map_fst, tagKindSummary_mainRun w mn mx d a1 a2 rest hAz]
  rfl

theorem mainRun_ok (w : World) (mn mx d : Nat)
    (a1 a2 : String) (rest : List String) (hAz : w.azNames = a1 :: a2 :: rest) :
    exceptOk (mainRun w mn mx d).2 = true := by
  have hami : (!(strStartsWith AMI_ID "ami-") || strContains AMI_ID "x") = false := by decide
  simp [mainRun, hami, pick_two_azs, hAz, exceptOk]

/-- The dependency pairs of the section-3 table, as (dependency,
dependent): each dependent is created strictly after its dependency. -/
def creationDepPairs : List (ResourceKind × ResourceKind) :=
  [(ResourceKind.network, ResourceKind.gateway),
   (ResourceKind.network, ResourceKind.routeTable),
   (ResourceKind.gateway, ResourceKind.routeTable),
   (ResourceKind.network, ResourceKind.subnet),
   (ResourceKind.routeTable, ResourceKind.subnet),
   (ResourceKind.network, ResourceKind.securityGroup),
   (ResourceKind.network, ResourceKind.targetGroup),
   (ResourceKind.subnet, ResourceKind.loadBalancer),
   (ResourceKind.loadBalancer, ResourceKind.listener),
   (ResourceKind.targetGroup, ResourceKind.listener),
   (ResourceKind.securityGroup, ResourceKind.launchTemplate),
   (ResourceKind.launchTemplate, ResourceKind.scalingGroup),
   (ResourceKind.subnet, ResourceKind.scalingGroup),
   (ResourceKind.targetGroup, ResourceKind.scalingGroup)]

instance (ks : List ResourceKind) (k1 k2 : ResourceKind) :
    Decidable (OrderedPairP ks k1 k2) := by
  unfold OrderedPairP
  infer_instance

theorem build_creation_order (w : World) (mn mx d : Nat)
    (a1 a2 : String) (rest : List String) (hAz : w.azNames = a1 :: a2 :: rest) :
    ∀ p ∈ creationDepPairs,
      p.1 ∈ createKinds (mainRun w mn mx d).1 ∧
      p.2 ∈ createKinds (mainRun w mn mx d).1 ∧
      OrderedPairP (createKinds (mainRun w mn mx d).1) p.1 p.2 := by
  rw [createKinds_mainRun w mn mx d a1 a2 rest hAz]
  decide

/-- A concrete happy-path control plane for the builder. -/
def sampleWorld : World :=
  { envRegion := "us-east-1"
    azNames := ["us-east-1a", "us-east-1b"]
    vpcId := "vpc-1"
    igwId := "igw-1"
    rtId := "rtb-1"
    subnetId := fun i => if i == 0 then "subnet-a" else "subnet-b"
    sgId := "sg-1"
    tgArn := "tgarn-1"
    lbArn := "lbarn-1"
    lbDns := "dns-1"
    listenerArn := "lsnarn-1"
    ltId := "lt-1"
    nlbState := fun _ => "provisioning" }

example : Call.createListener "lbarn-1" "TCP" 443 "tgarn-1" ∈ (mainRun sampleWorld 2 4 2).1 := by
  decide

example : hasStackTag (Call.createListener "lbarn-1" "TCP" 443 "tgarn-1") = false := by decide

theorem builder_tags_amended (w : World) (mn mx d : Nat)
    (a1 a2 : String) (rest : List String) (hAz : w.azNames = a1 :: a2 :: rest) :
    (∀ c ∈ (mainRun w mn mx d).1, ∀ k, kindOf c = some k →
       k ≠ ResourceKind.listener → hasStackTag c = true) ∧
    (∀ c ∈ (mainRun w mn mx d).1, kindOf c = some ResourceKind.listener →
       hasStackTag c = false) := by
  constructor
  · intro c hc k hk hne
    have hmem : (k, hasStackTag c) ∈ tagKindSummary (mainRun w mn mx d).1 :=
      List.mem_filterMap.mpr ⟨c, hc, by rw [hk]; rfl⟩
    rw [tagKindSummary_mainRun w mn mx d a1 a2 rest hAz] at hmem
    simp only [List.mem_cons, List.not_mem_nil, or_false] at hmem
    rcases hmem with h|h|h|h|h|h|h|h|h|h|h <;> injection h with h1 h2 <;>
      exact absurd h1 hne
  · intro c hc hk
    have hmem : (ResourceKind.listener, hasStackTag c) ∈ tagKindSummary (mainRun w mn mx d).1 :=
      List.mem_filterMap.mpr ⟨c, hc, by rw [hk]; rfl⟩
    rw [tagKindSummary_mainRun w mn mx d a1 a2 rest hAz] at hmem
    simp only [List.mem_cons, List.not_mem_nil, or_false] at hmem
    rcases hmem with h|h|h|h|h|h|h|h|h|h|h <;> injection h with h1 h2 <;>
      simp at h1

def isDescribeLb : Call → Bool
  | Call.describeLoadBalancers _ => true
  | _ => false

/-- Number of load-balancer describe (poll) calls in a trace. -/
def describeLbCount (t : List Call) : Nat := t.countP isDescribeLb

theorem pollLoop_countP (w : World) (a : String) (attempt fuel : Nat) :
    (pollLoop w a attempt fuel).countP isDescribeLb = (pollLoop w a attempt fuel).length := by
  induction fuel generalizing attempt with
  | zero => rfl
  | succ f ih =>
    unfold pollLoop
    by_cases h : strEq (w.nlbState attempt) "active" = true
    · simp [h, List.countP_cons, isDescribeLb]
    · simp only [Bool.not_eq_true] at h
      simp [h, List.countP_cons, isDescribeLb, ih (attempt + 1)]

theorem describeLbCount_mainRun (w : World) (mn mx d : Nat)
    (a1 a2 : String) (rest : List String) (hAz : w.azNames = a1 :: a2 :: rest) :
    describeLbCount (mainRun w mn mx d).1 = (pollLoop w w.lbArn 0 30).length := by
  rw [describeLbCount, mainRun_trace w mn mx d a1 a2 rest hAz]
  simp [List.countP_append, List.countP_cons, isDescribeLb, pollLoop_countP]

theorem pollLoop_length_exhaust (w : World) (a : String) (attempt fuel : Nat)
    (h : ∀ i, attempt ≤ i → i < attempt + fuel → strEq (w.nlbState i) "active" = false) :
    (pollLoop w a attempt fuel).length = fuel := by
  induction fuel generalizing attempt with
  | zero => rfl
  | succ f ih =>
    unfold pollLoop
    have h0 : strEq (w.nlbState attempt) "active" = false := by
      exact h attempt (Nat.le_refl _) (by omega)
    simp only [h0, Bool.false_eq_true, if_false, List.length_cons]
    rw [ih (attempt + 1) (fun i hi1 hi2 => h i (by omega) (by omega))]

theorem pollLoop_length_active (w : World) (a : String) (attempt fuel j : Nat)
    (hj1 : attempt ≤ j) (hj2 : j < attempt + fuel)
    (hact : strEq (w.nlbState j) "active" = true)
    (hbefore : ∀ i, attempt ≤ i → i < j → strEq (w.nlbState i) "active" = false) :
    (pollLoop w a attempt fuel).length = j + 1 - attempt := by
  induction fuel generalizing attempt with
  | zero => omega
  | succ f ih =>
    unfold pollLoop
    by_cases heq : attempt = j
    · subst heq
      simp [hact]
    · have h0 : strEq (w.nlbState attempt) "active" = false :=
        hbefore attempt (Nat.le_refl _) (by omega)
      simp only [h0, Bool.false_eq_true, if_false, List.length_cons]
      rw [ih (attempt + 1) (by omega) (by omega)
        (fun i hi1 hi2 => hbefore i (by omega) hi2)]
      omega

/-- C9 main statement components, to be wrapped as a claim theorem. -/
theorem nlb_wait_best_effort (w : World) (mn mx d : Nat)
    (a1 a2 : String) (rest : List String) (hAz : w.azNames = a1 :: a2 :: rest) :
    ((∀ i, i < 30 → strEq (w.nlbState i) "active" = false) →
       describeLbCount (mainRun w mn mx d).1 = 30 ∧
       exceptOk (mainRun w mn mx d).2 = true ∧
       ResourceKind.listener ∈ createKinds (mainRun w mn mx d).1) ∧
    (∀ j, j < 30 → strEq (w.nlbState j) "active" = true →
       (∀ i, i < j → strEq (w.nlbState i) "active" = false) →
       describeLbCount (mainRun w mn mx d).1 = j + 1) := by
  constructor
  · intro hnever
    refine ⟨?_, mainRun_ok w mn mx d a1 a2 rest hAz, ?_⟩
    · rw [describeLbCount_mainRun w mn mx d a1 a2 rest hAz]
      exact pollLoop_length_exhaust w w.lbArn 0 30 (fun i h1 h2 => hnever i (by omega))
    · rw [createKinds_mainRun w mn mx d a1 a2 rest hAz]
      decide
  · intro j hj hact hbefore
    rw [describeLbCount_mainRun w mn mx d a1 a2 rest hAz]
    have := pollLoop_length_active w w.lbArn 0 30 j (Nat.zero_le _) (by omega) hact
      (fun i h1 h2 => hbefore i h2)
    omega

/-- The bound `0 ≤ min ≤ desired ≤ max` on a capacity configuration. -/
def capacityOk (minSize desired maxSize : Nat) : Bool :=
  decide (minSize ≤ desired) && decide (desired ≤ maxSize)

/-- Is this call a scaling-group creation with the given capacities? -/
def isAsgCreateWith (minSize maxSize desired : Nat) : Call → Bool
  | Call.createAutoScalingGroup _ mn mx d _ _ _ _ _ _ _ =>
      mn == minSize && mx == maxSize && d == desired
  | _ => false

theorem builder_never_validates_capacity (w : World) (mn mx d : Nat)
    (a1 a2 : String) (rest : List String) (hAz : w.azNames = a1 :: a2 :: rest) :
    (mainRun w mn mx d).1.any (isAsgCreateWith mn mx d) = true ∧
    exceptOk (mainRun w mn mx d).2 = true := by
  refine ⟨?_, mainRun_ok w mn mx d a1 a2 rest hAz⟩
  rw [mainRun_trace w mn mx d a1 a2 rest hAz]
  simp [List.any_append, isAsgCreateWith]

/-! ## destroy.py: module constants and helpers -/

def STACK : String := "s3-file-manager"

/-- Model of `has_stack_tag(obj)`: does a tag list carry `stack = STACK`? -/
def has_stack_tag (tags : List Tag) : Bool :=
  tags.any (fun t => strEq t.key "stack" && strEq t.value STACK)

/-- The transience test inside `retry`: the string form of the caught
client error contains `DependencyViolation` or `ResourceInUse`. -/
def isTransient (msg : String) : Bool :=
  strContains msg "DependencyViolation" || strContains msg "ResourceInUse"

/-- Outcome of one invocation of a control-plane operation: success, or a
`ClientError` whose string form is `msg`. -/
inductive Outcome where
  | success
  | clientError (msg : String)
deriving Repr, DecidableEq

/-! ## The retry driver of destroy.py, invocation-counting model (C3)

`retry(msg, fn, delay=15)` invokes `fn` repeatedly; a transient error
sleeps `delay` seconds and retries, any other error propagates.  The
operation is modelled by the outcome of each invocation (indexed from 0);
`fuel` bounds the recursion depth of the model only — the source loops
unboundedly, and every theorem supplies enough fuel. -/

inductive RetryResult where
  | ok (invocations : Nat) (sleepDurations : List Nat)
  | raised (msg : String) (invocations : Nat) (sleepDurations : List Nat)
  | fuelExhausted
deriving Repr, DecidableEq

def retryGo (op : Nat → Outcome) (delay k : Nat) (sleeps : List Nat) (fuel : Nat) :
    RetryResult :=
  match fuel with
  | 0 => RetryResult.fuelExhausted
  | Nat.succ f =>
    match op k with
    | Outcome.success => RetryResult.ok (k + 1) sleeps
    | Outcome.clientError m =>
      if isTransient m then retryGo op delay (k + 1) (sleeps ++ [delay]) f
      else RetryResult.raised m (k + 1) sleeps

/-- The driver `retry` with the default delay of 15 seconds. -/
def retry (op : Nat → Outcome) (fuel : Nat) : RetryResult := retryGo op 15 0 [] fuel

/-- Is the outcome of invocation `i` a transient client error? -/
def transientAt (op : Nat → Outcome) (i : Nat) : Bool :=
  match op i with
  | Outcome.success => false
  | Outcome.clientError m => isTransient m

theorem retryGo_ok (op : Nat → Outcome) (d : Nat) (n : Nat) :
    ∀ (k : Nat) (acc : List Nat) (fuel : Nat),
      (∀ i, i < n → transientAt op (k + i) = true) → op (k + n) = Outcome.success →
      n < fuel →
      retryGo op d k acc fuel = RetryResult.ok (k + n + 1) (acc ++ List.replicate n d) := by
  induction n with
  | zero =>
    intro k acc fuel htr hsucc hfuel
    match fuel, hfuel with
    | Nat.succ f, _ =>
      unfold retryGo
      rw [Nat.add_zero] at hsucc
      simp [hsucc]
  | succ n ih =>
    intro k acc fuel htr hsucc hfuel
    match fuel, hfuel with
    | Nat.succ f, _ =>
      have h0 : transientAt op (k + 0) = true := htr 0 (Nat.succ_pos n)
      rw [Nat.add_zero] at h0
      unfold retryGo
      match hop : op k with
      | Outcome.success => rw [transientAt, hop] at h0; exact absurd h0 (by simp)
      | Outcome.clientError m =>
        have hm : isTransient m = true := by rw [transientAt, hop] at h0; exact h0
        simp only [hm, if_true]
        have := ih (k + 1) (acc ++ [d]) f
          (fun i hi => by have := htr (i + 1) (by omega); rwa [show k + (i + 1) = k + 1 + i by omega] at this)
          (by rwa [show k + 1 + n = k + (n + 1) by omega])
          (by omega)
        rw [this, List.append_assoc]
        simp [List.replicate_succ]
        omega

theorem retryGo_raise (op : Nat → Outcome) (d : Nat) (n : Nat) (m : String) :
    ∀ (k : Nat) (acc : List Nat) (fuel : Nat),
      (∀ i, i < n → transientAt op (k + i) = true) →
      op (k + n) = Outcome.clientError m → isTransient m = false →
      n < fuel →
      retryGo op d k acc fuel = RetryResult.raised m (k + n + 1) (acc ++ List.replicate n d) := by
  induction n with
  | zero =>
    intro k acc fuel htr herr hnt hfuel
    match fuel, hfuel with
    | Nat.succ f, _ =>
      unfold retryGo
      rw [Nat.add_zero] at herr
      simp [herr, hnt]
  | succ n ih =>
    intro k acc fuel htr herr hnt hfuel
    match fuel, hfuel with
    | Nat.succ f, _ =>
      have h0 : transientAt op (k + 0) = true := htr 0 (Nat.succ_pos n)
      rw [Nat.add_zero] at h0
      unfold retryGo
      match hop : op k with
      | Outcome.success => rw [transientAt, hop] at h0; exact absurd h0 (by simp)
      | Outcome.clientError m2 =>
        have hm : isTransient m2 = true := by rw [transientAt, hop] at h0; exact h0
        simp only [hm, if_true]
        have := ih (k + 1) (acc ++ [d]) f
          (fun i hi => by have := htr (i + 1) (by omega); rwa [show k + (i + 1) = k + 1 + i by omega] at this)
          (by rwa [show k + 1 + n = k + (n + 1) by omega])
          hnt
          (by omega)
        rw [this, List.append_assoc]
        simp [List.replicate_succ]
        omega

theorem retry_classification (op : Nat → Outcome) (n : Nat) (m : String) (fuel : Nat)
    (htr : ∀ i, i < n → transientAt op i = true) (hfuel : n < fuel) :
    (op n = Outcome.success →
       retry op fuel = RetryResult.ok (n + 1) (List.replicate n 15)) ∧
    (op n = Outcome.clientError m → isTransient m = false →
       retry op fuel = RetryResult.raised m (n + 1) (List.replicate n 15)) := by
  constructor
  · intro hsucc
    have := retryGo_ok op 15 n 0 [] fuel
      (fun i hi => by rw [Nat.zero_add]; exact htr i hi)
      (by rwa [Nat.zero_add]) hfuel
    simpa [retry] using this
  · intro herr hnt
    have := retryGo_raise op 15 n m 0 [] fuel
      (fun i hi => by rw [Nat.zero_add]; exact htr i hi)
      (by rwa [Nat.zero_add]) hnt hfuel
    simpa [retry] using this

/-! ## destroy.py: the teardown script -/

/-- One control-plane call (or sleep) performed by the reaper. -/
inductive DCall where
  | describeAsgs
  | updateAsg (name : String) (minSize maxSize desiredCapacity : Nat)
  | deleteAsg (name : String) (forceDelete : Bool)
  | describeLbs
  | deleteLb (lbArn : String)
  | describeTgs
  | deleteTg (tgArn : String)
  | describeLts
  | deleteLt (ltId : String)
  | describeSgs
  | deleteSg (groupId : String)
  | describeVpcs
  | describeIgws (vpcId : String)
  | detachIgw (igwId : String) (vpcId : String)
  | deleteIgw (igwId : String)
  | describeSubnets (vpcId : String)
  | deleteSubnet (subnetId : String)
  | describeRts (vpcId : String)
  | deleteRt (rtId : String)
  | deleteVpc (vpcId : String)
  | sleep (seconds : Nat)
deriving Repr, DecidableEq

/-- An action of the script: a bare call (an uncaught error kills the
run), a `time.sleep`, or a call wrapped in `retry`. -/
inductive Act where
  | call (c : DCall)
  | sleepA (seconds : Nat)
  | retryA (c : DCall)
deriving Repr, DecidableEq

/-- Records as returned by the describe/list calls the reaper makes. -/
structure AsgRec where
  name : String
  tags : List Tag
deriving Repr, DecidableEq

structure LbRec where
  name : String
  arn : String
deriving Repr, DecidableEq

structure TgRec where
  name : String
  arn : String
deriving Repr, DecidableEq

structure LtRec where
  name : String
  id : String
deriving Repr, DecidableEq

structure SgRec where
  groupId : String
  tags : List Tag
deriving Repr, DecidableEq

structure VpcRec where
  vpcId : String
  tags : List Tag
deriving Repr, DecidableEq

structure IgwRec where
  igwId : String
  tags : List Tag
deriving Repr, DecidableEq

structure SubnetRec where
  subnetId : String
  tags : List Tag
deriving Repr, DecidableEq

/-- A route table record: the `Main` flags of its associations, plus its
tags (returned by describe, ignored by the script). -/
structure RtRec where
  rtId : String
  assocMain : List Bool
  tags : List Tag
deriving Repr, DecidableEq

/-- The control plane as observed by the describe/list calls of the reaper.
Gateways, subnets and route tables are listed per VPC id, matching the
filters the script passes. -/
structure DWorld where
  asgs : List AsgRec
  lbs : List LbRec
  tgs : List TgRec
  lts : List LtRec
  sgs : List SgRec
  vpcs : List VpcRec
  igws : String → List IgwRec
  subnets : String → List SubnetRec
  routeTables : String → List RtRec

/-- Auto Scaling Group phase: per tagged group, zero the capacities,
sleep 20 s, delete with `ForceDelete=True`. -/
def asgPhaseActs (w : DWorld) : List Act :=
  Act.call DCall.describeAsgs ::
    (w.asgs.filter (fun g => has_stack_tag g.tags)).flatMap (fun g =>
      [Act.call (DCall.updateAsg g.name 0 0 0), Act.sleepA 20,
       Act.call (DCall.deleteAsg g.name true)])

/-- Load balancer phase: delete each balancer whose name contains the
stack id, then wait 60 s for ENI release. -/
def lbPhaseActs (w : DWorld) : List Act :=
  Act.call DCall.describeLbs ::
    (w.lbs.filter (fun lb => strContains lb.name STACK)).map
        (fun lb => Act.call (DCall.deleteLb lb.arn))
    ++ [Act.sleepA 60]

/-- Target group phase: retry-delete each group whose name contains the
stack id. -/
def tgPhaseActs (w : DWorld) : List Act :=
  Act.call DCall.describeTgs ::
    (w.tgs.filter (fun tg => strContains tg.name STACK)).map
      (fun tg => Act.retryA (DCall.deleteTg tg.arn))

/-- Launch template phase: delete (no retry) each template whose name
contains the stack id. -/
def ltPhaseActs (w : DWorld) : List Act :=
  Act.call DCall.describeLts ::
    (w.lts.filter (fun lt => strContains lt.name STACK)).map
      (fun lt => Act.call (DCall.deleteLt lt.id))

/-- Security group phase: retry-delete each tagged group. -/
def sgPhaseActs (w : DWorld) : List Act :=
  Act.call DCall.describeSgs ::
    (w.sgs.filter (fun sg => has_stack_tag sg.tags)).map
      (fun sg => Act.retryA (DCall.deleteSg sg.groupId))

/-- Per tagged VPC: detach+delete its gateways, delete its subnets, its
non-main route tables, then the VPC itself, all under retry. -/
def vpcBlockActs (w : DWorld) (v : VpcRec) : List Act :=
  Act.call (DCall.describeIgws v.vpcId) ::
    (w.igws v.vpcId).flatMap (fun igw =>
        [Act.retryA (DCall.detachIgw igw.igwId v.vpcId),
         Act.retryA (DCall.deleteIgw igw.igwId)])
    ++ (Act.call (DCall.describeSubnets v.vpcId) ::
        (w.subnets v.vpcId).map (fun s => Act.retryA (DCall.deleteSubnet s.subnetId)))
    ++ (Act.call (DCall.describeRts v.vpcId) ::
        ((w.routeTables v.vpcId).filter
            (fun rt => !(rt.assocMain.any (fun b => b)))).map
          (fun rt => Act.retryA (DCall.deleteRt rt.rtId)))
    ++ [Act.retryA (DCall.deleteVpc v.vpcId)]

def vpcPhaseActs (w : DWorld) : List Act :=
  Act.call DCall.describeVpcs ::
    (w.vpcs.filter (fun v => has_stack_tag v.tags)).flatMap (vpcBlockActs w)

/-- The whole script, in source order. -/
def destroyActs (w : DWorld) : List Act :=
  asgPhaseActs w ++ lbPhaseActs w ++ tgPhaseActs w ++ ltPhaseActs w ++
    sgPhaseActs w ++ vpcPhaseActs w

/-- The wrapper `retry` around one call inside the script trace: invoke, and on a
transient error sleep 15 s and invoke again.  `f c k` is the outcome of
the (k+1)-th invocation of call `c`. -/
def retryCall (f : DCall → Nat → Outcome) (c : DCall) (k fuel : Nat) :
    List DCall × Except String Unit :=
  match fuel with
  | 0 => ([], Except.error "model: retry fuel exhausted")
  | Nat.succ fl =>
    match f c k with
    | Outcome.success => ([c], Except.ok ())
    | Outcome.clientError m =>
      if isTransient m then
        let r := retryCall f c (k + 1) fl
        (c :: DCall.sleep 15 :: r.1, r.2)
      else ([c], Except.error m)

/-- Run one action: the calls it issues and whether it raised. -/
def runAct (f : DCall → Nat → Outcome) (fuel : Nat) : Act → List DCall × Except String Unit
  | Act.call c =>
    ([c], match f c 0 with
          | Outcome.success => Except.ok ()
          | Outcome.clientError m => Except.error m)
  | Act.sleepA s => ([DCall.sleep s], Except.ok ())
  | Act.retryA c => retryCall f c 0 fuel

/-- Sequence the result of one action with the rest of the script: on success
continue, on an uncaught error stop (the exception terminates the Python
script, so the continuation contributes nothing). -/
def seqStep (step : List DCall × Except String Unit)
    (rest : List DCall × Except String Unit) : List DCall × Except String Unit :=
  match step with
  | (t, Except.ok _) => (t ++ rest.1, rest.2)
  | (t, Except.error e) => (t, Except.error e)

/-- Run a list of actions, stopping at the first uncaught error. -/
def runActs (f : DCall → Nat → Outcome) (fuel : Nat) : List Act → List DCall × Except String Unit
  | [] => ([], Except.ok ())
  | a :: rest => seqStep (runAct f fuel a) (runActs f fuel rest)

/-- A full reaper run against control plane `w` with fault behaviour `f`. -/
def destroyRun (w : DWorld) (f : DCall → Nat → Outcome) (fuel : Nat) :
    List DCall × Except String Unit :=
  runActs f fuel (destroyActs w)

/-- Trace of one action when every call succeeds at once. -/
def happyActTrace : Act → List DCall
  | Act.call c => [c]
  | Act.sleepA s => [DCall.sleep s]
  | Act.retryA c => [c]

theorem runActs_happy (f : DCall → Nat → Outcome) (fuel : Nat)
    (hf : ∀ c, f c 0 = Outcome.success) (hfuel : 0 < fuel) (acts : List Act) :
    runActs f fuel acts = (acts.flatMap happyActTrace, Except.ok ()) := by
  induction acts with
  | nil => rfl
  | cons a rest ih =>
    have hact : runAct f fuel a = (happyActTrace a, Except.ok ()) := by
      match a with
      | Act.call c => simp [runAct, hf c, happyActTrace]
      | Act.sleepA s => rfl
      | Act.retryA c =>
        match fuel, hfuel with
        | Nat.succ fl, _ => simp [runAct, retryCall, hf c, happyActTrace]
    unfold runActs
    rw [hact, ih]
    rfl

/-- Which resource kind a reaper call deletes, if any (the gateway detach
is part of the gateway step but not itself the deletion). -/
def deleteKindOf : DCall → Option ResourceKind
  | DCall.deleteAsg _ _ => some ResourceKind.scalingGroup
  | DCall.deleteLb _ => some ResourceKind.loadBalancer
  | DCall.deleteTg _ => some ResourceKind.targetGroup
  | DCall.deleteLt _ => some ResourceKind.launchTemplate
  | DCall.deleteSg _ => some ResourceKind.securityGroup
  | DCall.deleteIgw _ => some ResourceKind.gateway
  | DCall.deleteSubnet _ => some ResourceKind.subnet
  | DCall.deleteRt _ => some ResourceKind.routeTable
  | DCall.deleteVpc _ => some ResourceKind.network
  | _ => none

/-- The sequence of resource kinds deleted along a reaper trace. -/
def delKinds (t : List DCall) : List ResourceKind := t.filterMap deleteKindOf

theorem filterMap_flatMap_acts {α : Type} (l : List α) (g : α → List Act) :
    ((l.flatMap g).flatMap happyActTrace).filterMap deleteKindOf =
      l.flatMap (fun x => ((g x).flatMap happyActTrace).filterMap deleteKindOf) := by
  induction l with
  | nil => rfl
  | cons x rest ih =>
    simp only [List.flatMap_cons, List.flatMap_append, List.filterMap_append, ih]

theorem flatMap_deleteKind_const {α : Type} (l : List α) (g : α → List Act)
    (k : ResourceKind)
    (h : ∀ x, ((g x).flatMap happyActTrace).filterMap deleteKindOf = [k]) :
    (l.flatMap (fun x => ((g x).flatMap happyActTrace).filterMap deleteKindOf)) =
      List.replicate l.length k := by
  induction l with
  | nil => rfl
  | cons x rest ih =>
    simp only [List.flatMap_cons, h x, ih, List.length_cons, List.replicate_succ,
      List.singleton_append]

theorem mapActs_deleteKind_const {α : Type} (l : List α) (g : α → Act) (k : ResourceKind)
    (h : ∀ x, (happyActTrace (g x)).filterMap deleteKindOf = [k]) :
    (((l.map g).flatMap happyActTrace).filterMap deleteKindOf) =
      List.replicate l.length k := by
  induction l with
  | nil => rfl
  | cons x rest ih =>
    simp only [List.map_cons, List.flatMap_cons, List.filterMap_append, h x, ih,
      List.length_cons, List.replicate_succ, List.singleton_append]

theorem flatMapActs_deleteKind_const {α : Type} (l : List α) (g : α → List Act)
    (k : ResourceKind)
    (h : ∀ x, ((g x).flatMap happyActTrace).filterMap deleteKindOf = [k]) :
    (((l.flatMap g).flatMap happyActTrace).filterMap deleteKindOf) =
      List.replicate l.length k := by
  rw [filterMap_flatMap_acts]
  exact flatMap_deleteKind_const l g k h

/-- Non-main route tables of a VPC, as the script filters them. -/
def nonMainRts (w : DWorld) (vid : String) : List RtRec :=
  (w.routeTables vid).filter (fun rt => !(rt.assocMain.any (fun b => b)))

theorem vpcBlock_delKinds (w : DWorld) (v : VpcRec) :
    ((vpcBlockActs w v).flatMap happyActTrace).filterMap deleteKindOf =
      List.replicate (w.igws v.vpcId).length ResourceKind.gateway ++
      List.replicate (w.subnets v.vpcId).length ResourceKind.subnet ++
      List.replicate (nonMainRts w v.vpcId).length ResourceKind.routeTable ++
      [ResourceKind.network] := by
  have hIgw : ∀ (l : List IgwRec) (vid : String),
      ((l.flatMap (fun igw =>
          [Act.retryA (DCall.detachIgw igw.igwId vid),
           Act.retryA (DCall.deleteIgw igw.igwId)])).flatMap
          happyActTrace).filterMap deleteKindOf =
        List.replicate l.length ResourceKind.gateway :=
    fun l vid => flatMapActs_deleteKind_const l _ ResourceKind.gateway (fun igw => rfl)
  have hSub : ∀ l : List SubnetRec,
      (((l.map (fun s => Act.retryA (DCall.deleteSubnet s.subnetId))).flatMap
          happyActTrace).filterMap deleteKindOf) =
        List.replicate l.length ResourceKind.subnet :=
    fun l => mapActs_deleteKind_const l _ ResourceKind.subnet (fun s => rfl)
  have hRt : ∀ l : List RtRec,
      (((l.map (fun rt => Act.retryA (DCall.deleteRt rt.rtId))).flatMap
          happyActTrace).filterMap deleteKindOf) =
        List.replicate l.length ResourceKind.routeTable :=
    fun l => mapActs_deleteKind_const l _ ResourceKind.routeTable (fun rt => rfl)
  simp only [vpcBlockActs, List.flatMap_cons, List.flatMap_append, List.filterMap_append,
    List.filterMap_cons, happyActTrace, deleteKindOf, nonMainRts]
  rw [hIgw, hSub, hRt]
  simp

/-- Deletion kinds of a happy-path reaper run: the strict phase order of
the script, with the per-VPC gateway/subnet/route-table/network block. -/
theorem delKinds_destroy_happy (w : DWorld) (f : DCall → Nat → Outcome) (fuel : Nat)
    (hf : ∀ c, f c 0 = Outcome.success) (hfuel : 0 < fuel) :
    delKinds (destroyRun w f fuel).1 =
      List.replicate (w.asgs.filter (fun g => has_stack_tag g.tags)).length
          ResourceKind.scalingGroup ++
      List.replicate (w.lbs.filter (fun lb => strContains lb.name STACK)).length
          ResourceKind.loadBalancer ++
      List.replicate (w.tgs.filter (fun tg => strContains tg.name STACK)).length
          ResourceKind.targetGroup ++
      List.replicate (w.lts.filter (fun lt => strContains lt.name STACK)).length
          ResourceKind.launchTemplate ++
      List.replicate (w.sgs.filter (fun sg => has_stack_tag sg.tags)).length
          ResourceKind.securityGroup ++
      (w.vpcs.filter (fun v => has_stack_tag v.tags)).flatMap (fun v =>
        List.replicate (w.igws v.vpcId).length ResourceKind.gateway ++
        List.replicate (w.subnets v.vpcId).length ResourceKind.subnet ++
        List.replicate (nonMainRts w v.vpcId).length ResourceKind.routeTable ++
        [ResourceKind.network]) := by
  rw [destroyRun, runActs_happy f fuel hf hfuel]
  simp only [delKinds, destroyActs, List.flatMap_append, List.filterMap_append]
  rw [show ∀ t : List DCall, t.filterMap deleteKindOf = delKinds t from fun t => rfl]
  simp only [asgPhaseActs, lbPhaseActs, tgPhaseActs, ltPhaseActs, sgPhaseActs, vpcPhaseActs,
    List.flatMap_cons, List.flatMap_append, List.filterMap_append, List.filterMap_cons,
    happyActTrace, deleteKindOf, delKinds]
  have hAsg : ∀ l : List AsgRec,
      ((l.flatMap (fun g =>
          [Act.call (DCall.updateAsg g.name 0 0 0), Act.sleepA 20,
           Act.call (DCall.deleteAsg g.name true)])).flatMap
          happyActTrace).filterMap deleteKindOf =
        List.replicate l.length ResourceKind.scalingGroup :=
    fun l => flatMapActs_deleteKind_const l _ ResourceKind.scalingGroup (fun g => rfl)
  have hLb : ∀ l : List LbRec,
      (((l.map (fun lb => Act.call (DCall.deleteLb lb.arn))).flatMap
          happyActTrace).filterMap deleteKindOf) =
        List.replicate l.length ResourceKind.loadBalancer :=
    fun l => mapActs_deleteKind_const l _ ResourceKind.loadBalancer (fun lb => rfl)
  have hTg : ∀ l : List TgRec,
      (((l.map (fun tg => Act.retryA (DCall.deleteTg tg.arn))).flatMap
          happyActTrace).filterMap deleteKindOf) =
        List.replicate l.length ResourceKind.targetGroup :=
    fun l => mapActs_deleteKind_const l _ ResourceKind.targetGroup (fun tg => rfl)
  have hLt : ∀ l : List LtRec,
      (((l.map (fun lt => Act.call (DCall.deleteLt lt.id))).flatMap
          happyActTrace).filterMap deleteKindOf) =
        List.replicate l.length ResourceKind.launchTemplate :=
    fun l => mapActs_deleteKind_const l _ ResourceKind.launchTemplate (fun lt => rfl)
  have hSg : ∀ l : List SgRec,
      (((l.map (fun sg => Act.retryA (DCall.deleteSg sg.groupId))).flatMap
          happyActTrace).filterMap deleteKindOf) =
        List.replicate l.length ResourceKind.securityGroup :=
    fun l => mapActs_deleteKind_const l _ ResourceKind.securityGroup (fun sg => rfl)
  rw [hAsg, hLb, hTg, hLt, hSg, filterMap_flatMap_acts]
  simp only [vpcBlock_delKinds]
  simp

/-- Position of each kind in the deletion phase order of the reaper. -/
def phaseOrder : ResourceKind → Nat
  | ResourceKind.scalingGroup => 0
  | ResourceKind.loadBalancer => 1
  | ResourceKind.targetGroup => 2
  | ResourceKind.launchTemplate => 3
  | ResourceKind.securityGroup => 4
  | ResourceKind.gateway => 5
  | ResourceKind.subnet => 6
  | ResourceKind.routeTable => 7
  | ResourceKind.network => 8
  | ResourceKind.listener => 9

theorem pairwise_replicate_le (f : ResourceKind → Nat) (a : ResourceKind) (n : Nat) :
    List.Pairwise (fun x y => f x ≤ f y) (List.replicate n a) := by
  induction n with
  | zero => exact List.Pairwise.nil
  | succ n ih =>
    rw [List.replicate_succ]
    exact List.Pairwise.cons
      (fun b hb => by rw [List.eq_of_mem_replicate hb]) ih

theorem pairwise_phase_concat (a : ResourceKind) (n : Nat) (l : List ResourceKind)
    (hl : List.Pairwise (fun x y => phaseOrder x ≤ phaseOrder y) l)
    (hmin : ∀ b ∈ l, phaseOrder a ≤ phaseOrder b) :
    List.Pairwise (fun x y => phaseOrder x ≤ phaseOrder y) (List.replicate n a ++ l) :=
  List.pairwise_append.mpr
    ⟨pairwise_replicate_le phaseOrder a n, hl,
     fun x hx b hb => by rw [List.eq_of_mem_replicate hx]; exact hmin b hb⟩

theorem minPhase_concat (p : Nat) (a : ResourceKind) (n : Nat) (l : List ResourceKind)
    (hpa : p ≤ phaseOrder a) (hl : ∀ b ∈ l, p ≤ phaseOrder b) :
    ∀ b ∈ List.replicate n a ++ l, p ≤ phaseOrder b := by
  intro b hb
  rcases List.mem_append.mp hb with h | h
  · rw [List.eq_of_mem_replicate h]; exact hpa
  · exact hl b h

/-- The per-VPC deletion block is sorted and all its phases are ≥ 5. -/
theorem vpcBlock_sorted (g s r : Nat) :
    List.Pairwise (fun x y => phaseOrder x ≤ phaseOrder y)
      (List.replicate g ResourceKind.gateway ++
        (List.replicate s ResourceKind.subnet ++
          (List.replicate r ResourceKind.routeTable ++ [ResourceKind.network]))) ∧
    (∀ b ∈ List.replicate g ResourceKind.gateway ++
        (List.replicate s ResourceKind.subnet ++
          (List.replicate r ResourceKind.routeTable ++ [ResourceKind.network])),
      5 ≤ phaseOrder b) := by
  have hN : List.Pairwise (fun x y => phaseOrder x ≤ phaseOrder y) [ResourceKind.network] :=
    List.pairwise_singleton _ _
  have hNmin : ∀ p, p ≤ 8 → ∀ b ∈ [ResourceKind.network], p ≤ phaseOrder b := by
    intro p hp b hb
    rw [List.mem_singleton.mp hb]
    exact hp
  have hR := pairwise_phase_concat ResourceKind.routeTable r _ hN (hNmin 7 (by omega))
  have hRmin := minPhase_concat 5 ResourceKind.routeTable r _ (by decide) (hNmin 5 (by omega))
  have hS := pairwise_phase_concat ResourceKind.subnet s _ hR
    (minPhase_concat 6 ResourceKind.routeTable r _ (by decide) (hNmin 6 (by omega)))
  have hSmin := minPhase_concat 5 ResourceKind.subnet s _ (by decide) hRmin
  refine ⟨pairwise_phase_concat ResourceKind.gateway g _ hS
      (minPhase_concat 5 ResourceKind.subnet s _ (by decide) hRmin), ?_⟩
  exact minPhase_concat 5 ResourceKind.gateway g _ (by decide) hSmin

/-- A happy run with at most one tagged VPC deletes in nondecreasing
phase order. -/
theorem delKinds_sorted (w : DWorld) (f : DCall → Nat → Outcome) (fuel : Nat)
    (hf : ∀ c, f c 0 = Outcome.success) (hfuel : 0 < fuel)
    (hv : (w.vpcs.filter (fun v => has_stack_tag v.tags)).length ≤ 1) :
    List.Pairwise (fun x y => phaseOrder x ≤ phaseOrder y)
      (delKinds (destroyRun w f fuel).1) := by
  rw [delKinds_destroy_happy w f fuel hf hfuel]
  simp only [List.append_assoc]
  have hvpcPart :
      List.Pairwise (fun x y => phaseOrder x ≤ phaseOrder y)
        ((w.vpcs.filter (fun v => has_stack_tag v.tags)).flatMap (fun v =>
          List.replicate (w.igws v.vpcId).length ResourceKind.gateway ++
          (List.replicate (w.subnets v.vpcId).length ResourceKind.subnet ++
          (List.replicate (nonMainRts w v.vpcId).length ResourceKind.routeTable ++
          [ResourceKind.network])))) ∧
      ∀ b ∈ (w.vpcs.filter (fun v => has_stack_tag v.tags)).flatMap (fun v =>
          List.replicate (w.igws v.vpcId).length ResourceKind.gateway ++
          (List.replicate (w.subnets v.vpcId).length ResourceKind.subnet ++
          (List.replicate (nonMainRts w v.vpcId).length ResourceKind.routeTable ++
          [ResourceKind.network]))), 5 ≤ phaseOrder b := by
    rcases hfl : w.vpcs.filter (fun v => has_stack_tag v.tags) with _ | ⟨v, rest2⟩
    · rw [hfl]
      exact ⟨List.Pairwise.nil, by intro b hb; simp at hb⟩
    · rw [hfl] at hv
      simp only [List.length_cons] at hv
      have hrest : rest2 = [] := List.eq_nil_of_length_eq_zero (by omega)
      subst hrest
      rw [hfl]
      have := vpcBlock_sorted (w.igws v.vpcId).length (w.subnets v.vpcId).length
        (nonMainRts w v.vpcId).length
      simpa using this
  refine pairwise_phase_concat ResourceKind.scalingGroup _ _ ?_ ?_
  · refine pairwise_phase_concat ResourceKind.loadBalancer _ _ ?_ ?_
    · refine pairwise_phase_concat ResourceKind.targetGroup _ _ ?_ ?_
      · refine pairwise_phase_concat ResourceKind.launchTemplate _ _ ?_ ?_
        · exact pairwise_phase_concat ResourceKind.securityGroup _ _ hvpcPart.1
            (fun b hb => le_trans (by decide) (hvpcPart.2 b hb))
        · exact minPhase_concat 3 ResourceKind.securityGroup _ _ (by decide)
            (fun b hb => le_trans (by omega) (hvpcPart.2 b hb))
      · refine minPhase_concat 2 ResourceKind.launchTemplate _ _ (by decide) ?_
        exact minPhase_concat 2 ResourceKind.securityGroup _ _ (by decide)
          (fun b hb => le_trans (by omega) (hvpcPart.2 b hb))
    · refine minPhase_concat 1 ResourceKind.targetGroup _ _ (by decide) ?_
      refine minPhase_concat 1 ResourceKind.launchTemplate _ _ (by decide) ?_
      exact minPhase_concat 1 ResourceKind.securityGroup _ _ (by decide)
        (fun b hb => le_trans (by omega) (hvpcPart.2 b hb))
  · refine minPhase_concat 0 ResourceKind.loadBalancer _ _ (by decide) ?_
    refine minPhase_concat 0 ResourceKind.targetGroup _ _ (by decide) ?_
    refine minPhase_concat 0 ResourceKind.launchTemplate _ _ (by decide) ?_
    exact minPhase_concat 0 ResourceKind.securityGroup _ _ (by decide)
      (fun b hb => le_trans (by omega) (hvpcPart.2 b hb))

theorem orderedPair_of_sorted (ks : List ResourceKind) (k1 k2 : ResourceKind)
    (hp : List.Pairwise (fun x y => phaseOrder x ≤ phaseOrder y) ks)
    (hlt : phaseOrder k1 < phaseOrder k2) : OrderedPairP ks k1 k2 := by
  intro i hi j hj h1 h2
  rw [List.getD_eq_get ks k1 hi] at h1
  rw [List.getD_eq_get ks k2 hj] at h2
  by_contra hc
  have hji : j ≤ i := by omega
  rcases Nat.lt_or_ge j i with hlt2 | hge
  · have := (List.pairwise_iff_get.mp hp) ⟨j, hj⟩ ⟨i, hi⟩ hlt2
    rw [h1, h2] at this
    omega
  · have hij : i = j := by omega
    subst hij
    rw [h1] at h2
    subst h2
    omega

/-- The reverse-dependency pairs (deleted, dependency) that the reaper
does honour: every pair of the section-3 table except (route table,
gateway). -/
def amendedReverseDeletePairs : List (ResourceKind × ResourceKind) :=
  [(ResourceKind.scalingGroup, ResourceKind.launchTemplate),
   (ResourceKind.scalingGroup, ResourceKind.subnet),
   (ResourceKind.scalingGroup, ResourceKind.targetGroup),
   (ResourceKind.loadBalancer, ResourceKind.subnet),
   (ResourceKind.launchTemplate, ResourceKind.securityGroup),
   (ResourceKind.targetGroup, ResourceKind.network),
   (ResourceKind.securityGroup, ResourceKind.network),
   (ResourceKind.gateway, ResourceKind.network),
   (ResourceKind.routeTable, ResourceKind.network),
   (ResourceKind.subnet, ResourceKind.network),
   (ResourceKind.subnet, ResourceKind.routeTable)]

theorem destroy_reverse_order_amended (w : DWorld) (f : DCall → Nat → Outcome) (fuel : Nat)
    (hf : ∀ c, f c 0 = Outcome.success) (hfuel : 0 < fuel)
    (hv : (w.vpcs.filter (fun v => has_stack_tag v.tags)).length ≤ 1) :
    List.Pairwise (fun x y => phaseOrder x ≤ phaseOrder y)
      (delKinds (destroyRun w f fuel).1) ∧
    ∀ p ∈ amendedReverseDeletePairs,
      OrderedPairP (delKinds (destroyRun w f fuel).1) p.1 p.2 := by
  have hs := delKinds_sorted w f fuel hf hfuel hv
  refine ⟨hs, ?_⟩
  intro p hp
  refine orderedPair_of_sorted _ p.1 p.2 hs ?_
  simp only [amendedReverseDeletePairs, List.mem_cons, List.not_mem_nil, or_false] at hp
  rcases hp with h|h|h|h|h|h|h|h|h|h|h <;> (subst h; decide)

/-- The discovery criterion under which the reaper issues each deletion
call: its own stack tag for scaling groups, security groups and VPCs; a
name containing the stack id for load balancers, target groups and launch
templates; and membership in (attachment to) a tag-selected VPC for
gateways, subnets and route tables, regardless of their own tags. -/
def selectionOK (w : DWorld) : DCall → Prop
  | DCall.updateAsg nm _ _ _ =>
      ∃ g ∈ w.asgs, has_stack_tag g.tags = true ∧ g.name = nm
  | DCall.deleteAsg nm frc =>
      frc = true ∧ ∃ g ∈ w.asgs, has_stack_tag g.tags = true ∧ g.name = nm
  | DCall.deleteLb arn =>
      ∃ lb ∈ w.lbs, strContains lb.name STACK = true ∧ lb.arn = arn
  | DCall.deleteTg arn =>
      ∃ tg ∈ w.tgs, strContains tg.name STACK = true ∧ tg.arn = arn
  | DCall.deleteLt lid =>
      ∃ lt ∈ w.lts, strContains lt.name STACK = true ∧ lt.id = lid
  | DCall.deleteSg gid =>
      ∃ sg ∈ w.sgs, has_stack_tag sg.tags = true ∧ sg.groupId = gid
  | DCall.detachIgw gid vid =>
      ∃ v ∈ w.vpcs, has_stack_tag v.tags = true ∧ v.vpcId = vid ∧
        ∃ ig ∈ w.igws vid, ig.igwId = gid
  | DCall.deleteIgw gid =>
      ∃ v ∈ w.vpcs, has_stack_tag v.tags = true ∧
        ∃ ig ∈ w.igws v.vpcId, ig.igwId = gid
  | DCall.deleteSubnet sid =>
      ∃ v ∈ w.vpcs, has_stack_tag v.tags = true ∧
        ∃ s ∈ w.subnets v.vpcId, s.subnetId = sid
  | DCall.deleteRt rid =>
      ∃ v ∈ w.vpcs, has_stack_tag v.tags = true ∧
        ∃ rt ∈ w.routeTables v.vpcId, rt.assocMain.any (fun b => b) = false ∧ rt.rtId = rid
  | DCall.deleteVpc vid =>
      ∃ v ∈ w.vpcs, has_stack_tag v.tags = true ∧ v.vpcId = vid
  | _ => True

/-- The calls an action can ever put in the trace (including retry
sleeps). -/
def actCalls : Act → List DCall
  | Act.call c => [c]
  | Act.sleepA s => [DCall.sleep s]
  | Act.retryA c => [c, DCall.sleep 15]

theorem retryCall_mem (f : DCall → Nat → Outcome) (c0 : DCall) :
    ∀ (k fuel : Nat) (c : DCall), c ∈ (retryCall f c0 k fuel).1 →
      c = c0 ∨ c = DCall.sleep 15 := by
  intro k fuel
  induction fuel generalizing k with
  | zero => intro c hc; simp [retryCall] at hc
  | succ fl ih =>
    intro c hc
    unfold retryCall at hc
    match hop : f c0 k with
    | Outcome.success =>
      rw [hop] at hc
      simp at hc
      exact Or.inl hc
    | Outcome.clientError m =>
      rw [hop] at hc
      by_cases ht : isTransient m = true
      · simp only [ht, if_true, List.mem_cons] at hc
        rcases hc with h | h | h
        · exact Or.inl h
        · exact Or.inr h
        · exact ih (k + 1) c h
      · simp only [Bool.not_eq_true] at ht
        simp [ht] at hc
        exact Or.inl hc

theorem runActs_mem (f : DCall → Nat → Outcome) (fuel : Nat) :
    ∀ (acts : List Act) (c : DCall), c ∈ (runActs f fuel acts).1 →
      ∃ a ∈ acts, c ∈ actCalls a := by
  intro acts
  induction acts with
  | nil => intro c hc; simp [runActs] at hc
  | cons a rest ih =>
    intro c hc
    unfold runActs at hc
    have hone : c ∈ (runAct f fuel a).1 → c ∈ actCalls a := by
      intro hmem
      match a with
      | Act.call c0 => simpa [runAct, actCalls] using hmem
      | Act.sleepA s => simpa [runAct, actCalls] using hmem
      | Act.retryA c0 =>
        simp only [runAct] at hmem
        rcases retryCall_mem f c0 0 fuel c hmem with h | h <;> simp [actCalls, h]
    match hra : runAct f fuel a with
    | (t, Except.ok u) =>
      rw [hra] at hc
      simp only [seqStep] at hc
      rcases List.mem_append.mp hc with h | h
      · exact ⟨a, List.mem_cons_self a rest, hone (by rw [hra]; exact h)⟩
      · obtain ⟨a2, ha2, hca2⟩ := ih c h
        exact ⟨a2, List.mem_cons_of_mem a ha2, hca2⟩
    | (t, Except.error e) =>
      rw [hra] at hc
      simp only [seqStep] at hc
      exact ⟨a, List.mem_cons_self a rest, hone (by rw [hra]; exact hc)⟩

theorem asgPhase_selection (w : DWorld) :
    ∀ a ∈ asgPhaseActs w, ∀ c ∈ actCalls a, selectionOK w c := by
  intro a ha c hc
  simp only [asgPhaseActs, List.mem_cons, List.mem_flatMap, List.mem_filter] at ha
  rcases ha with ha | ⟨g, ⟨hg, hgt⟩, hga⟩
  · subst ha; simp [actCalls] at hc; subst hc; trivial
  · simp only [List.mem_cons, List.not_mem_nil, or_false] at hga
    rcases hga with h | h | h <;> subst h <;> simp [actCalls] at hc <;> subst hc <;>
      first
        | exact ⟨g, hg, hgt, rfl⟩
        | exact ⟨rfl, g, hg, hgt, rfl⟩
        | trivial

theorem lbPhase_selection (w : DWorld) :
    ∀ a ∈ lbPhaseActs w, ∀ c ∈ actCalls a, selectionOK w c := by
  intro a ha c hc
  simp only [lbPhaseActs, List.mem_cons, List.mem_append, List.mem_map, List.mem_filter,
    List.mem_singleton] at ha
  rcases ha with (ha | ⟨lb, ⟨hlb, hlbt⟩, hlba⟩) | (ha | ha)
  · subst ha; simp [actCalls] at hc; subst hc; trivial
  · subst hlba; simp [actCalls] at hc; subst hc; exact ⟨lb, hlb, hlbt, rfl⟩
  · subst ha; simp [actCalls] at hc; subst hc; trivial
  · simp at ha

theorem tgPhase_selection (w : DWorld) :
    ∀ a ∈ tgPhaseActs w, ∀ c ∈ actCalls a, selectionOK w c := by
  intro a ha c hc
  simp only [tgPhaseActs, List.mem_cons, List.mem_map, List.mem_filter] at ha
  rcases ha with ha | ⟨tg, ⟨htg, htgt⟩, htga⟩
  · subst ha; simp [actCalls] at hc; subst hc; trivial
  · subst htga
    simp only [actCalls, List.mem_cons, List.not_mem_nil, or_false] at hc
    rcases hc with h | h <;> subst h
    · exact ⟨tg, htg, htgt, rfl⟩
    · trivial

theorem ltPhase_selection (w : DWorld) :
    ∀ a ∈ ltPhaseActs w, ∀ c ∈ actCalls a, selectionOK w c := by
  intro a ha c hc
  simp only [ltPhaseActs, List.mem_cons, List.mem_map, List.mem_filter] at ha
  rcases ha with ha | ⟨lt2, ⟨hlt, hltt⟩, hlta⟩
  · subst ha; simp [actCalls] at hc; subst hc; trivial
  · subst hlta; simp [actCalls] at hc; subst hc; exact ⟨lt2, hlt, hltt, rfl⟩

theorem sgPhase_selection (w : DWorld) :
    ∀ a ∈ sgPhaseActs w, ∀ c ∈ actCalls a, selectionOK w c := by
  intro a ha c hc
  simp only [sgPhaseActs, List.mem_cons, List.mem_map, List.mem_filter] at ha
  rcases ha with ha | ⟨sg, ⟨hsg, hsgt⟩, hsga⟩
  · subst ha; simp [actCalls] at hc; subst hc; trivial
  · subst hsga
    simp only [actCalls, List.mem_cons, List.not_mem_nil, or_false] at hc
    rcases hc with h | h <;> subst h
    · exact ⟨sg, hsg, hsgt, rfl⟩
    · trivial

theorem vpcBlock_selection (w : DWorld) (v : VpcRec)
    (hvm : v ∈ w.vpcs) (hvt : has_stack_tag v.tags = true) :
    ∀ a ∈ vpcBlockActs w v, ∀ c ∈ actCalls a, selectionOK w c := by
  intro a ha c hc
  simp only [vpcBlockActs, List.mem_cons, List.mem_append, List.mem_flatMap, List.mem_map,
    List.mem_filter, List.mem_singleton] at ha
  rcases ha with (((ha | ⟨igw, higw, higwa⟩) | (ha | ⟨s, hs, hsa⟩)) |
    (ha | ⟨rt, ⟨hrt, hrtf⟩, hrta⟩)) | (ha | ha)
  · subst ha; simp [actCalls] at hc; subst hc; trivial
  · rcases higwa with h | h | h
    · subst h
      simp only [actCalls, List.mem_cons, List.not_mem_nil, or_false] at hc
      rcases hc with h2 | h2 <;> subst h2
      · exact ⟨v, hvm, hvt, rfl, igw, higw, rfl⟩
      · trivial
    · subst h
      simp only [actCalls, List.mem_cons, List.not_mem_nil, or_false] at hc
      rcases hc with h2 | h2 <;> subst h2
      · exact ⟨v, hvm, hvt, igw, higw, rfl⟩
      · trivial
    · simp at h
  · subst ha; simp [actCalls] at hc; subst hc; trivial
  · subst hsa
    simp only [actCalls, List.mem_cons, List.not_mem_nil, or_false] at hc
    rcases hc with h | h <;> subst h
    · exact ⟨v, hvm, hvt, s, hs, rfl⟩
    · trivial
  · subst ha; simp [actCalls] at hc; subst hc; trivial
  · subst hrta
    simp only [actCalls, List.mem_cons, List.not_mem_nil, or_false] at hc
    rcases hc with h | h <;> subst h
    · refine ⟨v, hvm, hvt, rt, hrt, ?_, rfl⟩
      simpa using hrtf
    · trivial
  · subst ha
    simp only [actCalls, List.mem_cons, List.not_mem_nil, or_false] at hc
    rcases hc with h | h <;> subst h
    · exact ⟨v, hvm, hvt, rfl⟩
    · trivial
  · simp at ha

theorem destroyActs_selection (w : DWorld) :
    ∀ a ∈ destroyActs w, ∀ c ∈ actCalls a, selectionOK w c := by
  intro a ha
  simp only [destroyActs, List.mem_append] at ha
  rcases ha with ((((ha | ha) | ha) | ha) | ha) | ha
  · exact asgPhase_selection w a ha
  · exact lbPhase_selection w a ha
  · exact tgPhase_selection w a ha
  · exact ltPhase_selection w a ha
  · exact sgPhase_selection w a ha
  · simp only [vpcPhaseActs, List.mem_cons, List.mem_flatMap, List.mem_filter] at ha
    rcases ha with ha | ⟨v, ⟨hvm, hvt⟩, hva⟩
    · subst ha
      intro c hc
      simp [actCalls] at hc
      subst hc
      trivial
    · exact vpcBlock_selection w v hvm hvt a hva

/-- Every call a reaper run issues satisfies its discovery criterion:
nothing outside the tag / name / VPC-membership selection is touched. -/
theorem reaper_selection_sound (w : DWorld) (f : DCall → Nat → Outcome) (fuel : Nat) :
    ∀ c ∈ (destroyRun w f fuel).1, selectionOK w c := by
  intro c hc
  obtain ⟨a, ha, hca⟩ := runActs_mem f fuel (destroyActs w) c hc
  exact destroyActs_selection w a ha c hca

theorem runActs_cons (f : DCall → Nat → Outcome) (fuel : Nat) (a : Act) (rest : List Act) :
    runActs f fuel (a :: rest) =
      seqStep (runAct f fuel a) (runActs f fuel rest) := rfl

theorem runActs_cons_ok (f : DCall → Nat → Outcome) (fuel : Nat) (a : Act)
    (rest : List Act) (t0 : List DCall) (u : Unit) (h : runAct f fuel a = (t0, Except.ok u)) :
    runActs f fuel (a :: rest) =
      (t0 ++ (runActs f fuel rest).1, (runActs f fuel rest).2) := by
  rw [runActs_cons, h]
  rfl

theorem runActs_cons_error (f : DCall → Nat → Outcome) (fuel : Nat) (a : Act)
    (rest : List Act) (t0 : List DCall) (m : String)
    (h : runAct f fuel a = (t0, Except.error m)) :
    runActs f fuel (a :: rest) = (t0, Except.error m) := by
  rw [runActs_cons, h]
  rfl

theorem runActs_append_ok (f : DCall → Nat → Outcome) (fuel : Nat)
    (A B : List Act) (t : List DCall)
    (hA : runActs f fuel A = (t, Except.ok ())) :
    runActs f fuel (A ++ B) =
      (t ++ (runActs f fuel B).1, (runActs f fuel B).2) := by
  induction A generalizing t with
  | nil =>
    injection hA with h1 h2
    subst h1
    simp
  | cons a rest ih =>
    rw [List.cons_append]
    match hra : runAct f fuel a with
    | (t0, Except.ok u) =>
      rw [runActs_cons_ok f fuel a rest t0 u hra] at hA
      match hrest : runActs f fuel rest with
      | (t1, r1) =>
        rw [hrest] at hA
        simp only at hA
        injection hA with h1 h2
        subst h2
        rw [runActs_cons_ok f fuel a (rest ++ B) t0 u hra, ih t1 hrest]
        simp [← h1, List.append_assoc]
    | (t0, Except.error e) =>
      rw [runActs_cons_error f fuel a rest t0 e hra] at hA
      injection hA with h1 h2
      exact Except.noConfusion h2

theorem runActs_append_error (f : DCall → Nat → Outcome) (fuel : Nat)
    (A B : List Act) (t : List DCall) (m : String)
    (hA : runActs f fuel A = (t, Except.error m)) :
    runActs f fuel (A ++ B) = (t, Except.error m) := by
  induction A generalizing t with
  | nil =>
    injection hA with h1 h2
    exact Except.noConfusion h2
  | cons a rest ih =>
    rw [List.cons_append]
    match hra : runAct f fuel a with
    | (t0, Except.ok u) =>
      rw [runActs_cons_ok f fuel a rest t0 u hra] at hA
      match hrest : runActs f fuel rest with
      | (t1, r1) =>
        rw [hrest] at hA
        simp only at hA
        injection hA with h1 h2
        subst h2
        rw [runActs_cons_ok f fuel a (rest ++ B) t0 u hra, ih t1 hrest]
        simp [← h1]
    | (t0, Except.error e) =>
      rw [runActs_cons_error f fuel a rest t0 e hra] at hA
      injection hA with h1 h2
      subst h1
      injection h2 with h3
      subst h3
      exact runActs_cons_error f fuel a (rest ++ B) t0 e hra

/-- An uncaught (non-transient) error while processing one resource kind
ends the whole run: the trace is exactly what ran before the error. -/
theorem nontransient_aborts_run (w : DWorld) (f : DCall → Nat → Outcome) (fuel : Nat)
    (t0 t1 : List DCall) (m : String) (g1 g2 : List Act)
    (hsplit : tgPhaseActs w = g1 ++ g2)
    (hok : runActs f fuel (asgPhaseActs w ++ lbPhaseActs w) = (t0, Except.ok ()))
    (herr : runActs f fuel g1 = (t1, Except.error m)) :
    destroyRun w f fuel = (t0 ++ t1, Except.error m) := by
  have hacts : destroyActs w =
      (asgPhaseActs w ++ lbPhaseActs w) ++
        (g1 ++ (g2 ++ (ltPhaseActs w ++ (sgPhaseActs w ++ vpcPhaseActs w)))) := by
    rw [destroyActs, hsplit]
    simp [List.append_assoc]
  rw [destroyRun, hacts, runActs_append_ok f fuel _ _ t0 hok,
    runActs_append_error f fuel g1 _ t1 m herr]

theorem flatMap_comp {α : Type} (l : List α) (g : α → List Act) :
    (l.flatMap g).flatMap happyActTrace =
      l.flatMap (fun x => (g x).flatMap happyActTrace) := by
  induction l with
  | nil => rfl
  | cons x rest ih => simp only [List.flatMap_cons, List.flatMap_append, ih]

/-- On a happy run, each tagged scaling group is zeroed, the settle delay
sleeps, and only then is the (forced) delete issued, in that order. -/
theorem asg_drain_before_delete (w : DWorld) (f : DCall → Nat → Outcome) (fuel : Nat)
    (hf : ∀ c, f c 0 = Outcome.success) (hfuel : 0 < fuel)
    (g : AsgRec) (hg : g ∈ w.asgs) (hgt : has_stack_tag g.tags = true) :
    List.Sublist [DCall.updateAsg g.name 0 0 0, DCall.sleep 20,
        DCall.deleteAsg g.name true]
      (destroyRun w f fuel).1 := by
  rw [destroyRun, runActs_happy f fuel hf hfuel]
  have hgf : g ∈ w.asgs.filter (fun g2 => has_stack_tag g2.tags) :=
    List.mem_filter.mpr ⟨hg, hgt⟩
  obtain ⟨s, t, hst⟩ := List.append_of_mem hgf
  have hA : (asgPhaseActs w).flatMap happyActTrace =
      DCall.describeAsgs ::
        (s.flatMap (fun g2 => [DCall.updateAsg g2.name 0 0 0, DCall.sleep 20,
            DCall.deleteAsg g2.name true]) ++
          ([DCall.updateAsg g.name 0 0 0, DCall.sleep 20, DCall.deleteAsg g.name true] ++
            t.flatMap (fun g2 => [DCall.updateAsg g2.name 0 0 0, DCall.sleep 20,
              DCall.deleteAsg g2.name true]))) := by
    rw [asgPhaseActs]
    simp only [List.flatMap_cons, happyActTrace, flatMap_comp, hst, List.flatMap_append]
    rfl
  have hT : List.Sublist [DCall.updateAsg g.name 0 0 0, DCall.sleep 20,
      DCall.deleteAsg g.name true] ((asgPhaseActs w).flatMap happyActTrace) := by
    rw [hA]
    refine List.Sublist.cons _ ?_
    exact List.Sublist.trans (List.sublist_append_left _ _) (List.sublist_append_right _ _)
  simp only [destroyActs, List.flatMap_append]
  exact hT.trans ((List.sublist_append_left _ _).trans
    ((List.sublist_append_left _ _).trans ((List.sublist_append_left _ _).trans
      ((List.sublist_append_left _ _).trans (List.sublist_append_left _ _)))))

/-! ## Concrete environments for witnesses and counterexamples -/

def stTag : Tag := ⟨"stack", "s3-file-manager"⟩

/-- A concrete control plane holding exactly one stack worth of
resources, plus one untagged subnet inside the tagged VPC. -/
def sampleDWorld : DWorld :=
  { asgs := [⟨"s3-file-manager-asg", [stTag]⟩]
    lbs := [⟨"s3-file-manager-nlb", "lbarn-1"⟩]
    tgs := [⟨"s3-file-manager-tg-443", "tgarn-1"⟩]
    lts := [⟨"s3-file-manager-lt", "lt-1"⟩]
    sgs := [⟨"sg-1", [stTag]⟩]
    vpcs := [⟨"vpc-1", [stTag]⟩]
    igws := fun vid => if strEq vid "vpc-1" then [⟨"igw-1", [stTag]⟩] else []
    subnets := fun vid =>
      if strEq vid "vpc-1" then [⟨"subnet-a", [stTag]⟩, ⟨"subnet-orphan", []⟩] else []
    routeTables := fun vid =>
      if strEq vid "vpc-1" then [⟨"rtb-main", [true], []⟩, ⟨"rtb-1", [false], [stTag]⟩]
      else [] }

/-- The always-succeeding control plane. -/
def faultFree : DCall → Nat → Outcome := fun _ _ => Outcome.success


/-- Control plane with two matching target groups and a matching launch
template. -/
def dWorldTwoTgs : DWorld :=
  { asgs := []
    lbs := []
    tgs := [⟨"s3-file-manager-tg-443", "tgarn-1"⟩, ⟨"s3-file-manager-tg2", "tgarn-2"⟩]
    lts := [⟨"s3-file-manager-lt", "lt-1"⟩]
    sgs := [⟨"sg-1", [stTag]⟩]
    vpcs := []
    igws := fun _ => []
    subnets := fun _ => []
    routeTables := fun _ => [] }

/-- Faults: deleting the first target group always fails with a
non-transient (permission) error; everything else succeeds. -/
def faultTgDenied : DCall → Nat → Outcome := fun c _ =>
  match c with
  | DCall.deleteTg arn =>
    if strEq arn "tgarn-1" then
      Outcome.clientError
        "An error occurred (AccessDenied) when calling the DeleteTargetGroup operation"
    else Outcome.success
  | _ => Outcome.success


/-! ## config.py independence -/

/-- The builder run as a function of the config.py constants.  Since
provision.py never imports config.py — `main` reads only the constants at
the top of its own file — the parameter is unused. -/
def provisionRunGivenConfig (_cfg : ConfigPy) (w : World) :
    List Call × Except String Summary :=
  mainRun w MIN_SIZE MAX_SIZE DESIRED

/-- The reaper run as a function of the config.py constants.  destroy.py
never imports config.py either — it defines its own REGION and STACK. -/
def destroyRunGivenConfig (_cfg : ConfigPy) (w : DWorld) (f : DCall → Nat → Outcome)
    (fuel : Nat) : List DCall × Except String Unit :=
  destroyRun w f fuel

/-! ## Claim theorems -/

/-- C1: in every builder run (with at least two availability zones, i.e.
one that reaches the creation sequence), the creation call of each resource is
issued strictly after the creation calls of every resource it depends on
per the dependency table: network before gateway; network and gateway
before the route table; network and route table before each subnet;
network before the security group and the target group; both subnets
before the load balancer; load balancer and target group before the
listener; security group before the launch template; and launch template,
subnets, and target group before the scaling group. -/
theorem c1_creation_order (w : World) (mn mx d : Nat)
    (a1 a2 : String) (rest : List String) (hAz : w.azNames = a1 :: a2 :: rest) :
    ∀ p ∈ creationDepPairs,
      p.1 ∈ createKinds (mainRun w mn mx d).1 ∧
      p.2 ∈ createKinds (mainRun w mn mx d).1 ∧
      OrderedPairP (createKinds (mainRun w mn mx d).1) p.1 p.2 :=
  build_creation_order w mn mx d a1 a2 rest hAz

theorem c1_creation_order_witness :
    sampleWorld.azNames = ["us-east-1a", "us-east-1b"] ∧
    ∀ p ∈ creationDepPairs,
      p.1 ∈ createKinds (mainRun sampleWorld 2 4 2).1 ∧
      p.2 ∈ createKinds (mainRun sampleWorld 2 4 2).1 ∧
      OrderedPairP (createKinds (mainRun sampleWorld 2 4 2).1) p.1 p.2 :=
  ⟨rfl, c1_creation_order sampleWorld 2 4 2 "us-east-1a" "us-east-1b" [] rfl⟩

/-- C2 (amended): on every happy-path reaper run over a single tagged
network, deletion calls are issued in the phase order scaling group, load
balancer, (fixed 60 s wait), target groups, launch templates, security
groups, then per network: gateway detach+delete, subnets, non-main route
tables, network last; every resource is deleted strictly before the
resources it depended on at creation, EXCEPT the route table, which the
script deletes after the internet gateway it referenced (the final
universal of the claim fails on that one pair, see the counterexample). -/
theorem c2_teardown_order (w : DWorld) (f : DCall → Nat → Outcome) (fuel : Nat)
    (hf : ∀ c, f c 0 = Outcome.success) (hfuel : 0 < fuel)
    (hv : (w.vpcs.filter (fun v => has_stack_tag v.tags)).length ≤ 1) :
    DCall.sleep 60 ∈ (destroyRun w f fuel).1 ∧
    List.Pairwise (fun x y => phaseOrder x ≤ phaseOrder y)
      (delKinds (destroyRun w f fuel).1) ∧
    ∀ p ∈ amendedReverseDeletePairs,
      OrderedPairP (delKinds (destroyRun w f fuel).1) p.1 p.2 := by
  refine ⟨?_, destroy_reverse_order_amended w f fuel hf hfuel hv⟩
  rw [destroyRun, runActs_happy f fuel hf hfuel]
  refine List.mem_flatMap.mpr ⟨Act.sleepA 60, ?_, by simp [happyActTrace]⟩
  simp [destroyActs, lbPhaseActs, List.mem_append]

theorem c2_teardown_order_witness :
    (sampleDWorld.vpcs.filter (fun v => has_stack_tag v.tags)).length ≤ 1 ∧
    DCall.sleep 60 ∈ (destroyRun sampleDWorld faultFree 5).1 ∧
    List.Pairwise (fun x y => phaseOrder x ≤ phaseOrder y)
      (delKinds (destroyRun sampleDWorld faultFree 5).1) ∧
    ∀ p ∈ amendedReverseDeletePairs,
      OrderedPairP (delKinds (destroyRun sampleDWorld faultFree 5).1) p.1 p.2 :=
  ⟨by decide,
   c2_teardown_order sampleDWorld faultFree 5 (fun _ => rfl) (by decide) (by decide)⟩

/-- C2 counterexample: on a concrete happy run, the gateway deletion is
at index 5 and the route-table deletion at index 8 of the deletion
sequence, yet the route table depends on the gateway at creation (its
default route names the gateway), so "every resource is deleted strictly
before the resources it depended on at creation" fails for the pair
(route table, gateway). -/
theorem c2_routeTable_deleted_after_gateway :
    (delKinds (destroyRun sampleDWorld faultFree 5).1).getD 5 ResourceKind.gateway =
        ResourceKind.gateway ∧
    (delKinds (destroyRun sampleDWorld faultFree 5).1).getD 8 ResourceKind.routeTable =
        ResourceKind.routeTable ∧
    ¬ OrderedPairP (delKinds (destroyRun sampleDWorld faultFree 5).1)
        ResourceKind.routeTable ResourceKind.gateway := by
  refine ⟨by decide, by decide, ?_⟩
  intro h
  have := h 8 (by decide) 5 (by decide) (by decide) (by decide)
  omega

/-- C3: for every operation passed to `retry`, if the first n invocations
raise client errors whose code marks them transient (still in use /
still referenced) and invocation n+1 succeeds, `retry` invokes the
operation exactly n+1 times, sleeping the fixed 15-second delay between
invocations (n sleeps), and returns with no error; if an invocation
raises an error with any other code after n transient ones, `retry`
propagates it immediately after exactly n+1 invocations. -/
theorem c3_retry_classification (op : Nat → Outcome) (n : Nat) (m : String) (fuel : Nat)
    (htr : ∀ i, i < n → transientAt op i = true) (hfuel : n < fuel) :
    (op n = Outcome.success →
       retry op fuel = RetryResult.ok (n + 1) (List.replicate n 15)) ∧
    (op n = Outcome.clientError m → isTransient m = false →
       retry op fuel = RetryResult.raised m (n + 1) (List.replicate n 15)) :=
  retry_classification op n m fuel htr hfuel

/-- The stuck-dependency scenario of the spec: three transient "in use"
errors, then success. -/
def opThreeBusy : Nat → Outcome := fun i =>
  if i < 3 then
    Outcome.clientError
      "An error occurred (DependencyViolation) when calling the DeleteSecurityGroup operation"
  else Outcome.success

theorem c3_retry_classification_witness :
    retry opThreeBusy 10 = RetryResult.ok 4 (List.replicate 3 15) :=
  (c3_retry_classification opThreeBusy 3 "unused" 10 (by decide) (by decide)).1 (by decide)

/-- C4 (amended): the fixed capacity configuration of the builder satisfies
`0 ≤ min ≤ desired ≤ max` (MIN_SIZE = 2, DESIRED = 2, MAX_SIZE = 4), but
the builder performs no validation: for EVERY capacity configuration,
violating or not, a run that reaches the creation sequence issues the
scaling-group creation call with exactly those values and completes
without a configuration error — no rejection path exists. -/
theorem c4_capacity_check (w : World) (mn mx d : Nat)
    (a1 a2 : String) (rest : List String) (hAz : w.azNames = a1 :: a2 :: rest) :
    capacityOk MIN_SIZE DESIRED MAX_SIZE = true ∧
    (mainRun w mn mx d).1.any (isAsgCreateWith mn mx d) = true ∧
    exceptOk (mainRun w mn mx d).2 = true :=
  ⟨by decide, builder_never_validates_capacity w mn mx d a1 a2 rest hAz⟩

theorem c4_capacity_check_witness :
    capacityOk 3 2 4 = false ∧
    (mainRun sampleWorld 3 4 2).1.any (isAsgCreateWith 3 4 2) = true ∧
    exceptOk (mainRun sampleWorld 3 4 2).2 = true :=
  ⟨by decide, (c4_capacity_check sampleWorld 3 4 2 "us-east-1a" "us-east-1b" [] rfl).2⟩

/-- C4 counterexample: the configuration min = 3, desired = 2, max = 4
violates the capacity ordering, yet the builder issues its whole call
sequence — including the scaling-group creation call carrying those very
values — and returns success instead of rejecting before any API call. -/
theorem c4_violation_not_rejected :
    capacityOk 3 2 4 = false ∧
    (mainRun sampleWorld 3 4 2).1.any (isAsgCreateWith 3 4 2) = true ∧
    exceptOk (mainRun sampleWorld 3 4 2).2 = true ∧
    (mainRun sampleWorld 3 4 2).1 ≠ [] := by
  exact ⟨by decide, by decide, by decide, by decide⟩

/-- C5 (amended): every resource the builder creates carries the
stack-identity tag `stack = NAME` at creation — with the same value
across the topology — EXCEPT the listener, whose creation call passes no
tags at all (see the counterexample). -/
theorem c5_stack_tags (w : World) (mn mx d : Nat)
    (a1 a2 : String) (rest : List String) (hAz : w.azNames = a1 :: a2 :: rest) :
    (∀ c ∈ (mainRun w mn mx d).1, ∀ k, kindOf c = some k →
       k ≠ ResourceKind.listener → hasStackTag c = true) ∧
    (∀ c ∈ (mainRun w mn mx d).1, kindOf c = some ResourceKind.listener →
       hasStackTag c = false) :=
  builder_tags_amended w mn mx d a1 a2 rest hAz

theorem c5_stack_tags_witness :
    (∀ c ∈ (mainRun sampleWorld 2 4 2).1, ∀ k, kindOf c = some k →
       k ≠ ResourceKind.listener → hasStackTag c = true) ∧
    (∀ c ∈ (mainRun sampleWorld 2 4 2).1, kindOf c = some ResourceKind.listener →
       hasStackTag c = false) :=
  c5_stack_tags sampleWorld 2 4 2 "us-east-1a" "us-east-1b" [] rfl

/-- C5 counterexample: the listener creation call of a concrete builder
run is a creation call of the topology that does not carry the stack
tag — `create_listener` is invoked with no Tags argument. -/
theorem c5_listener_untagged :
    Call.createListener "lbarn-1" "TCP" 443 "tgarn-1" ∈ (mainRun sampleWorld 2 4 2).1 ∧
    kindOf (Call.createListener "lbarn-1" "TCP" 443 "tgarn-1") =
      some ResourceKind.listener ∧
    hasStackTag (Call.createListener "lbarn-1" "TCP" 443 "tgarn-1") = false :=
  ⟨by decide, rfl, rfl⟩

/-- C6 (amended): every call a reaper run issues satisfies its per-kind
discovery criterion — own stack tag for scaling groups, security groups
and networks; name containing the stack id for load balancers, target
groups and launch templates; membership in (attachment to) a tag-selected
network for gateways, subnets and route tables, REGARDLESS of their own
tags.  So a resource inside a tagged network is deleted even when it
carries neither the tag nor the name substring (see counterexample). -/
theorem c6_reaper_selection (w : DWorld) (f : DCall → Nat → Outcome) (fuel : Nat) :
    ∀ c ∈ (destroyRun w f fuel).1, selectionOK w c :=
  reaper_selection_sound w f fuel

theorem c6_reaper_selection_witness :
    DCall.deleteSg "sg-1" ∈ (destroyRun sampleDWorld faultFree 5).1 ∧
    selectionOK sampleDWorld (DCall.deleteSg "sg-1") :=
  ⟨by decide,
   c6_reaper_selection sampleDWorld faultFree 5 (DCall.deleteSg "sg-1") (by decide)⟩

/-- C6 counterexample: `subnet-orphan` carries no tags at all (so in
particular not the stack tag) and, being a subnet, is not one of the
three name-matched kinds, yet the reaper deletes it because it sits in a
tagged network — refuting "no resource lacking both the tag and the name
substring is deleted". -/
theorem c6_untagged_subnet_deleted :
    DCall.deleteSubnet "subnet-orphan" ∈ (destroyRun sampleDWorld faultFree 5).1 ∧
    (∃ s ∈ sampleDWorld.subnets "vpc-1",
      s.subnetId = "subnet-orphan" ∧ has_stack_tag s.tags = false) :=
  ⟨by decide, ⟨"subnet-orphan", []⟩, by decide, rfl, rfl⟩

/-- C7 (amended): for every scaling group the reaper deletes, it first
sets min, max and desired capacity to zero and waits the fixed 20 s
settle delay before issuing the delete; but the delete always carries
`ForceDelete=True` — the forced delete is not reserved for a last
resort (see counterexample). -/
theorem c7_asg_teardown (w : DWorld) (f : DCall → Nat → Outcome) (fuel : Nat)
    (hf : ∀ c, f c 0 = Outcome.success) (hfuel : 0 < fuel) :
    (∀ nm frc, DCall.deleteAsg nm frc ∈ (destroyRun w f fuel).1 → frc = true) ∧
    (∀ g ∈ w.asgs, has_stack_tag g.tags = true →
       List.Sublist [DCall.updateAsg g.name 0 0 0, DCall.sleep 20,
           DCall.deleteAsg g.name true]
         (destroyRun w f fuel).1) := by
  constructor
  · intro nm frc hmem
    exact (reaper_selection_sound w f fuel _ hmem).1
  · intro g hg hgt
    exact asg_drain_before_delete w f fuel hf hfuel g hg hgt

theorem c7_asg_teardown_witness :
    List.Sublist [DCall.updateAsg "s3-file-manager-asg" 0 0 0, DCall.sleep 20,
        DCall.deleteAsg "s3-file-manager-asg" true]
      (destroyRun sampleDWorld faultFree 5).1 :=
  (c7_asg_teardown sampleDWorld faultFree 5 (fun _ => rfl) (by decide)).2
    ⟨"s3-file-manager-asg", [stTag]⟩ (by decide) (by decide)

def isDeleteAsgCall : DCall → Bool
  | DCall.deleteAsg _ _ => true
  | _ => false

/-- C7 counterexample: on a happy run — capacity already zeroed, nothing
failing, no prior unforced attempt — the only scaling-group delete the
reaper issues already has the force flag set, so forced deletion is used
on every deletion, not only as a last resort. -/
theorem c7_force_on_every_delete :
    (destroyRun sampleDWorld faultFree 5).1.filter isDeleteAsgCall =
      [DCall.deleteAsg "s3-file-manager-asg" true] := by decide

/-- C8 (amended): an uncaught non-transient error raised while deleting
one resource of a kind aborts not only the remaining resources of that
kind but the entire run: once the target-group phase errors, the trace
ends there and no later phase (launch templates, security groups,
networks — independent kinds) is attempted. -/
theorem c8_error_propagation (w : DWorld) (f : DCall → Nat → Outcome) (fuel : Nat)
    (t0 t1 : List DCall) (m : String) (g1 g2 : List Act)
    (hsplit : tgPhaseActs w = g1 ++ g2)
    (hok : runActs f fuel (asgPhaseActs w ++ lbPhaseActs w) = (t0, Except.ok ()))
    (herr : runActs f fuel g1 = (t1, Except.error m)) :
    destroyRun w f fuel = (t0 ++ t1, Except.error m) :=
  nontransient_aborts_run w f fuel t0 t1 m g1 g2 hsplit hok herr

theorem c8_error_propagation_witness :
    destroyRun dWorldTwoTgs faultTgDenied 5 =
      ([DCall.describeAsgs, DCall.describeLbs, DCall.sleep 60] ++
         [DCall.describeTgs, DCall.deleteTg "tgarn-1"],
       Except.error
         "An error occurred (AccessDenied) when calling the DeleteTargetGroup operation") :=
  c8_error_propagation dWorldTwoTgs faultTgDenied 5
    [DCall.describeAsgs, DCall.describeLbs, DCall.sleep 60]
    [DCall.describeTgs, DCall.deleteTg "tgarn-1"]
    "An error occurred (AccessDenied) when calling the DeleteTargetGroup operation"
    [Act.call DCall.describeTgs, Act.retryA (DCall.deleteTg "tgarn-1")]
    [Act.retryA (DCall.deleteTg "tgarn-2")]
    rfl rfl rfl

/-- C8 counterexample: with a second matching target group and a matching
launch template present, a non-transient (AccessDenied) error on the
first target-group delete terminates the run — the second target group
is skipped AND the independent launch-template kind is never attempted
(no describe, no delete), refuting "does not prevent attempting teardown
of resources of independent kinds". -/
theorem c8_error_stops_other_kinds :
    exceptOk (destroyRun dWorldTwoTgs faultTgDenied 5).2 = false ∧
    DCall.deleteTg "tgarn-1" ∈ (destroyRun dWorldTwoTgs faultTgDenied 5).1 ∧
    DCall.deleteTg "tgarn-2" ∉ (destroyRun dWorldTwoTgs faultTgDenied 5).1 ∧
    DCall.describeLts ∉ (destroyRun dWorldTwoTgs faultTgDenied 5).1 ∧
    DCall.deleteLt "lt-1" ∉ (destroyRun dWorldTwoTgs faultTgDenied 5).1 ∧
    (∃ lt ∈ dWorldTwoTgs.lts, strContains lt.name STACK = true) :=
  ⟨rfl, by decide, by decide, by decide, by decide,
   ⟨"s3-file-manager-lt", "lt-1"⟩, by decide, by decide⟩

/-- C9: after creating the load balancer and before creating the
listener, the builder polls the described state of the balancer up to the
fixed budget of 30 attempts, stopping as soon as the state is "active"
(first active at attempt j, 0-based, means exactly j+1 describe calls);
if all 30 observations are not "active" it makes exactly 30 describe
calls, returns from the wait without error, and still proceeds to create
the listener. -/
theorem c9_nlb_wait (w : World) (mn mx d : Nat)
    (a1 a2 : String) (rest : List String) (hAz : w.azNames = a1 :: a2 :: rest) :
    ((∀ i, i < 30 → strEq (w.nlbState i) "active" = false) →
       describeLbCount (mainRun w mn mx d).1 = 30 ∧
       exceptOk (mainRun w mn mx d).2 = true ∧
       ResourceKind.listener ∈ createKinds (mainRun w mn mx d).1) ∧
    (∀ j, j < 30 → strEq (w.nlbState j) "active" = true →
       (∀ i, i < j → strEq (w.nlbState i) "active" = false) →
       describeLbCount (mainRun w mn mx d).1 = j + 1) :=
  nlb_wait_best_effort w mn mx d a1 a2 rest hAz

theorem c9_nlb_wait_witness :
    describeLbCount (mainRun sampleWorld 2 4 2).1 = 30 ∧
    exceptOk (mainRun sampleWorld 2 4 2).2 = true ∧
    ResourceKind.listener ∈ createKinds (mainRun sampleWorld 2 4 2).1 :=
  (c9_nlb_wait sampleWorld 2 4 2 "us-east-1a" "us-east-1b" [] rfl).1
    (fun _ _ => rfl)

/-- C10: neither the builder nor the reaper reads any constant of
config.py — each defines its own fixed constants (e.g. capacity bounds
2/2/4 in the builder against 1/1/5 in config.py) — so for any two values
of the config.py constants both runs issue identical calls and produce
identical outputs. -/
theorem c10_config_unread (cfg1 cfg2 : ConfigPy) (w : World) (dw : DWorld)
    (f : DCall → Nat → Outcome) (fuel : Nat) :
    provisionRunGivenConfig cfg1 w = provisionRunGivenConfig cfg2 w ∧
    destroyRunGivenConfig cfg1 dw f fuel = destroyRunGivenConfig cfg2 dw f fuel ∧
    (MIN_SIZE = 2 ∧ DESIRED = 2 ∧ MAX_SIZE = 4) ∧
    (configPyDefaults.asgMin = 1 ∧ configPyDefaults.asgDesired = 1 ∧
      configPyDefaults.asgMax = 5) :=
  ⟨rfl, rfl, ⟨rfl, rfl, rfl⟩, ⟨rfl, rfl, rfl⟩⟩
